import Mathlib

/-!
# Lambda Labs Terraform provider: resource lifecycle

A shallow embedding of `internal/provider/instance_resource.go`,
`internal/provider/ssh_key_resource.go`, `internal/provider/validators.go`,
`internal/provider/provider.go`, `pgk/lambdalabs/client.go`, of the read operations of
the instance and filesystem data sources and of the helpers they use (`helpers.go`,
`models.go`), followed by theorems about the operations of the resources, their schemas,
the provider configuration and the helpers.

Conventions of the embedding.

* `types.String` is `TfString` (null, unknown or a known value).
* A Go slice is `Slice α := Option (List α)`; `none` is the nil slice.
* A Go `map[string]V` is `GoMap V`, an association list whose newest binding is at the
  head; `GoMap.set` is `m[k] = v` and `GoMap.get?` is the two-valued `v, ok := m[k]`.
* Go `error` values are their message strings, `[]byte` bodies are strings.
* The generated HTTP client is a record of functions (`Client`): every request the code
  issues is answered by the corresponding field.
* Time is a logical clock in milliseconds that advances only by the sleeps of the code
  and by the waits of the retry helper.
-/

namespace LambdaLabs

/-! ## Framework values -/

/-- Value of the plugin framework type `types.String`. -/
inductive TfString where
  | null
  | unknown
  | value (s : String)
  deriving DecidableEq, Repr

/-- Method `ValueString`: the known value, the empty string for null and unknown. -/
def TfString.ValueString : TfString → String
  | .value s => s
  | _ => ""

/-- Method `ValueStringPointer`: nil for null, a pointer to the value otherwise
(a pointer to the empty string for unknown). -/
def TfString.ValueStringPointer : TfString → Option String
  | .null => none
  | .unknown => some ""
  | .value s => some s

/-- Constructor `types.StringValue`. -/
def StringValue (s : String) : TfString := .value s

/-- Constructor `types.StringPointerValue`: null for a nil pointer. -/
def StringPointerValue : Option String → TfString
  | none => .null
  | some s => .value s

/-- Value of the plugin framework type `types.Int64`. -/
inductive TfInt64 where
  | null
  | unknown
  | value (n : Int)
  deriving DecidableEq, Repr

/-- Constructor `types.Int64Value`. -/
def Int64Value (n : Int) : TfInt64 := .value n

/-- A Go slice; `none` is the nil slice. -/
abbrev Slice (α : Type) := Option (List α)

/-- Elements visited by `range` over a slice (none for the nil slice). -/
def Slice.elems {α : Type} : Slice α → List α
  | none => []
  | some xs => xs

/-- A Go `map[string]V`: association list, newest binding first. -/
abbrev GoMap (V : Type) := List (String × V)

/-- The map `make(map[string]V)`. -/
def GoMap.empty {V : Type} : GoMap V := []

/-- Assignment `m[k] = v`. -/
def GoMap.set {V : Type} (m : GoMap V) (k : String) (v : V) : GoMap V := (k, v) :: m

/-- Lookup `v, ok := m[k]`; `none` when `ok` is false. -/
def GoMap.get? {V : Type} (m : GoMap V) (k : String) : Option V := List.lookup k m

/-! ## Diagnostics -/

/-- Severity of a diagnostic. -/
inductive Severity where
  | error
  | warning
  deriving DecidableEq, Repr

/-- One diagnostic of the plugin framework. -/
structure Diagnostic where
  severity : Severity
  summary : String
  detail : String
  deriving DecidableEq, Repr

/-- The framework type `diag.Diagnostics`. -/
abbrev Diagnostics := List Diagnostic

/-- Method `HasError`: some diagnostic has error severity. -/
def Diagnostics.HasError (d : Diagnostics) : Bool :=
  d.any (fun x => x.severity == Severity.error)

/-- Method `Append`: adds the diagnostics that are not already contained. -/
def Diagnostics.Append (d : Diagnostics) (ins : Diagnostics) : Diagnostics :=
  ins.foldl (fun acc x => if acc.contains x then acc else acc ++ [x]) d

/-- Method `AddError`: appends an error diagnostic. -/
def Diagnostics.AddError (d : Diagnostics) (summary detail : String) : Diagnostics :=
  Diagnostics.Append d [⟨Severity.error, summary, detail⟩]

/-! ## helpers.go -/

/-- Go `makeTfStringList`: converts a slice of strings to a slice of `types.String`. -/
def makeTfStringList (rawStrings : Slice String) : Slice TfString :=
  some (rawStrings.elems.foldl (fun tfStrings str => tfStrings ++ [StringValue str]) [])

/-- Go `makeStringListFromTf`: converts a slice of `types.String` to a slice of strings. -/
def makeStringListFromTf (tfStrings : Slice TfString) : Slice String :=
  some (tfStrings.elems.foldl (fun strings tfStr => strings ++ [tfStr.ValueString]) [])

/-! ## models.go -/

/-- Go `RegionModel`. -/
structure RegionModel where
  Description : TfString
  Name : TfString
  deriving DecidableEq, Repr

/-- Go `InstanceSpecsModel`. -/
structure InstanceSpecsModel where
  MemoryGib : TfInt64
  StorageGib : TfInt64
  Vcpus : TfInt64
  deriving DecidableEq, Repr

/-- Go `InstanceTypeModel`. -/
structure InstanceTypeModel where
  Description : TfString
  Name : TfString
  PriceCentsPerHour : TfInt64
  Specs : InstanceSpecsModel
  deriving DecidableEq, Repr

/-- Go `InstanceDataSourceModel`. The two pointer fields (`Region`, `InstanceType`) are
always built non-nil by the code embedded here and are stored by value. -/
structure InstanceDataSourceModel where
  FileSystemNames : Slice TfString
  Hostname : TfString
  ID : TfString
  InstanceType : InstanceTypeModel
  Ip : TfString
  JupyterToken : TfString
  JupyterUrl : TfString
  Name : TfString
  Region : RegionModel
  SshKeyNames : Slice TfString
  Status : TfString
  deriving DecidableEq, Repr

/-- Go `InstanceResourceModel`: parameters for provisioning an instance. -/
structure InstanceResourceModel where
  ID : TfString
  FileSystemNames : Slice TfString
  InstanceTypeName : TfString
  Name : TfString
  RegionName : TfString
  SshKeyNames : Slice TfString
  deriving DecidableEq, Repr

/-! ## API types of the generated client (`pgk/lambdalabs`) -/

/-- API type `lambdalabs.Region`. -/
structure Region where
  Description : String
  Name : String
  deriving DecidableEq, Repr

/-- API type of the hardware specification of an instance type. -/
structure InstanceTypeSpecs where
  MemoryGib : Int
  StorageGib : Int
  Vcpus : Int
  deriving DecidableEq, Repr

/-- API type `lambdalabs.InstanceType`. -/
structure InstanceType where
  Description : String
  Name : String
  PriceCentsPerHour : Int
  Specs : InstanceTypeSpecs
  deriving DecidableEq, Repr

/-- One value of the instance-type catalog: the type and the regions that currently
report spare capacity for it. -/
structure InstanceTypeAvailability where
  InstanceType : InstanceType
  RegionsWithCapacityAvailable : List Region
  deriving DecidableEq, Repr

/-- Response of `InstanceTypesWithResponse`; `JSON200` is the parsed `Data` map. -/
structure InstanceTypesResponse where
  Body : String
  JSON200 : Option (GoMap InstanceTypeAvailability)
  deriving DecidableEq, Repr

/-- API type `lambdalabs.LaunchInstanceJSONRequestBody`; pointer fields are options. -/
structure LaunchInstanceJSONRequestBody where
  FileSystemNames : Option (Slice String)
  InstanceTypeName : String
  Name : Option String
  Quantity : Option Int
  RegionName : String
  SshKeyNames : Slice String
  deriving DecidableEq, Repr

/-- Response of `LaunchInstanceWithResponse`; `JSON200` is `Data.InstanceIds`. -/
structure LaunchInstanceResponse where
  StatusCode : Nat
  Body : String
  JSON200 : Option (List String)
  deriving DecidableEq, Repr

/-- API type `lambdalabs.Instance`. -/
structure Instance where
  FileSystemNames : Slice String
  Hostname : Option String
  Id : String
  InstanceType : InstanceType
  Ip : Option String
  JupyterToken : Option String
  JupyterUrl : Option String
  Name : Option String
  Region : Region
  SshKeyNames : Slice String
  Status : String
  deriving DecidableEq, Repr

/-- Response of `ListInstancesWithResponse`; `JSON200` is the parsed `Data` list. -/
structure ListInstancesResponse where
  Body : String
  JSON200 : Option (List Instance)
  deriving DecidableEq, Repr

/-- The remote API as seen by the instance resource. `InstanceTypesWithResponse n` is the
answer to the request number `n` (from 0) for the instance-type catalog; an `error` is
the Go `err` return value. -/
structure Client where
  InstanceTypesWithResponse : Nat → Except String InstanceTypesResponse
  LaunchInstanceWithResponse : LaunchInstanceJSONRequestBody → Except String LaunchInstanceResponse
  ListInstancesWithResponse : Except String ListInstancesResponse

/-! ## Formatting -/

/-- Hexadecimal digit of a number below 16, lower case. -/
def hexDigit (n : Nat) : Char :=
  if n < 10 then Char.ofNat (48 + n) else Char.ofNat (87 + n)

/-- The printable runes above U+00FF, as Go `strconv.IsPrint` classifies them. The table
belongs to the Go library and is not among the sources: it is a parameter of the
embedding, and every theorem holds for every table. -/
class GoPrintable where
  isPrint : Char → Bool

/-- Go `strconv.IsPrint`: up to U+00FF the characters from the space to the tilde and
those from U+00A1 on other than the soft hyphen U+00AD, above U+00FF the runes of the
table. -/
def goIsPrint [GoPrintable] (c : Char) : Bool :=
  if c.toNat < 256 then
    decide ((32 ≤ c.toNat ∧ c.toNat ≤ 126) ∨ (161 ≤ c.toNat ∧ c.toNat ≠ 173))
  else GoPrintable.isPrint c

/-- The `width` lower-case hexadecimal digits of `n`, most significant first. -/
def hexDigits (n : Nat) : Nat → List Char
  | 0 => []
  | width + 1 => hexDigits (n / 16) width ++ [hexDigit (n % 16)]

/-- Escape of one character by Go `strconv.Quote`: the double quote and the backslash
get a backslash, a printable character is kept, a control character gets its short or
its two-digit hexadecimal escape, any other character its four-digit or eight-digit
escape. -/
def quoteChar [GoPrintable] (c : Char) : String :=
  let bs := Char.ofNat 92
  if c.toNat = 34 ∨ c.toNat = 92 then String.mk [bs, c]
  else if goIsPrint c then String.mk [c]
  else if c.toNat = 7 then String.mk [bs, 'a']
  else if c.toNat = 8 then String.mk [bs, 'b']
  else if c.toNat = 12 then String.mk [bs, 'f']
  else if c.toNat = 10 then String.mk [bs, 'n']
  else if c.toNat = 13 then String.mk [bs, 'r']
  else if c.toNat = 9 then String.mk [bs, 't']
  else if c.toNat = 11 then String.mk [bs, 'v']
  else if c.toNat < 32 ∨ c.toNat = 127 then
    String.mk [bs, 'x', hexDigit (c.toNat / 16), hexDigit (c.toNat % 16)]
  else if c.toNat < 65536 then String.mk ([bs, 'u'] ++ hexDigits c.toNat 4)
  else String.mk ([bs, 'U'] ++ hexDigits c.toNat 8)

/-- Go `fmt.Sprintf("%q", s)` on a string. -/
def goQuote [GoPrintable] (s : String) : String :=
  String.mk [Char.ofNat 34] ++ String.join (s.toList.map quoteChar) ++ String.mk [Char.ofNat 34]

/-- Method `String` of `types.String`, which `%s` prints: the quoted value, or a marker
for null and unknown. -/
def TfString.String [GoPrintable] : TfString → String
  | .null => "<null>"
  | .unknown => "<unknown>"
  | .value s => goQuote s

/-! ## The retry helper (`helper/retry` of the plugin SDK)

`retry.RetryContext(ctx, timeout, f)` calls `f` until it returns nil or a non-retryable
error, or until `timeout` has elapsed. The helper lives outside the repository; it is
embedded as a sequential loop over a logical clock in milliseconds, for a context that
is never cancelled. -/

/-- Go `retry.RetryError`. -/
structure RetryError where
  Err : String
  Retryable : Bool
  deriving DecidableEq, Repr

/-- Go `retry.RetryableError`. -/
def RetryableError (err : String) : RetryError := ⟨err, true⟩

/-- Go `retry.NonRetryableError`. -/
def NonRetryableError (err : String) : RetryError := ⟨err, false⟩

/-- What `RetryContext` returns (`err`), with the number of calls of the retried function
and the clock reading at the return. -/
structure RetryOutcome where
  err : Option String
  attempts : Nat
  elapsed : Nat
  deriving DecidableEq, Repr

/-- Field `MinTimeout` set by `RetryContext`: 500 ms. -/
def minTimeout : Nat := 500

/-- Upper bound of the wait between two refreshes: 10 s. -/
def maxWait : Nat := 10000

/-- Grace period granted to a refresh that is running when the timeout fires: 30 s. -/
def refreshGracePeriod : Nat := 30000

/-- Message of the helper's timeout error, returned when no call of the retried function
has reported an error by the time the timeout fires. -/
def timeoutErrorText : String := "timeout while waiting for state to become 'success'"

/-- Wait before the next refresh: exponential backoff, at least `minTimeout`, at most
`maxWait`. -/
def nextWait (wait : Nat) : Nat :=
  let w := wait * 2
  if w < minTimeout then minTimeout else if w > maxWait then maxWait else w

/-- The refresh loop of `WaitForStateContext` as driven by `RetryContext`. `f i` is the
result of call number `i` of the retried function and the time that call takes. The
arguments are the remaining fuel, the clock, the wait before the next call, the number
of calls made and the error of the last call. A timeout that fires during a wait ends
the loop with the last error; a call that is running when the timeout fires is allowed
to finish within the grace period. The result is `none` only when the fuel runs out. -/
def retryLoop (timeout : Nat) (f : Nat → Option RetryError × Nat) :
    Nat → Nat → Nat → Nat → Option String → Option RetryOutcome
  | 0, now, wait, i, last =>
    if timeout ≤ now + wait then some ⟨some (last.getD timeoutErrorText), i, max now timeout⟩
    else none
  | fuel + 1, now, wait, i, last =>
    if timeout ≤ now + wait then some ⟨some (last.getD timeoutErrorText), i, max now timeout⟩
    else
      let fin := now + wait + (f i).2
      if timeout + refreshGracePeriod < fin then
        some ⟨some (last.getD timeoutErrorText), i + 1, timeout + refreshGracePeriod⟩
      else
        match (f i).1 with
        | none => some ⟨none, i + 1, fin⟩
        | some e =>
          if e.Retryable then
            if timeout ≤ fin then some ⟨some e.Err, i + 1, fin⟩
            else retryLoop timeout f fuel fin (nextWait wait) (i + 1) (some e.Err)
          else some ⟨some e.Err, i + 1, fin⟩

/-- Go `retry.RetryContext`: the loop started at clock 0 with no initial wait. Every
round but the first advances the clock by at least `minTimeout`, so the fuel
`timeout / minTimeout + 2` is never used up (`retryLoop_fuel_suffices`). -/
def RetryContext (timeout : Nat) (f : Nat → Option RetryError × Nat) : RetryOutcome :=
  (retryLoop timeout f (timeout / minTimeout + 2) 0 0 0 none).getD
    ⟨some timeoutErrorText, 0, timeout⟩

/-! ## instance_resource.go -/

/-- A request sent to the remote API by the instance resource. -/
inductive Call where
  | instanceTypes
  | launchInstance (body : LaunchInstanceJSONRequestBody)
  deriving DecidableEq, Repr

/-- Framework `resource.CreateRequest`: the plan as decoded by `req.Plan.Get` and the
diagnostics that decoding returns. -/
structure CreateRequest where
  Plan : InstanceResourceModel
  PlanGet : Diagnostics

/-- Result of a run of `Create`: the diagnostics and the state of the response (`State`
is `none` when `resp.State.Set` was not reached), the requests sent in order, and the
clock at the return. -/
structure CreateOutcome where
  Diagnostics : Diagnostics
  State : Option InstanceResourceModel
  calls : List Call
  elapsed : Nat
  deriving DecidableEq, Repr

/-- Timeout passed to `RetryContext` by `Create`: `20*time.Minute`, in milliseconds. -/
def createTimeout : Nat := 20 * 60 * 1000

/-- Sleep of the capacity poll before it reports a retryable error:
`2 * time.Second`, in milliseconds. -/
def capacitySleep : Nat := 2000

/-- The function retried by `Create` (lines 153-179), at its call number `i`: the retry
error it returns (`none` for nil) and the time it sleeps. -/
def capacityPoll (client : Client) (data : InstanceResourceModel) (i : Nat) :
    Option RetryError × Nat :=
  match client.InstanceTypesWithResponse i with
  | .error err =>
    (some (NonRetryableError ("unable to read available instance types, got error: " ++ err)), 0)
  | .ok instanceTypesResponse =>
    match instanceTypesResponse.JSON200 with
    | none =>
      (some (NonRetryableError ("unable to read available instance types, got error: "
        ++ instanceTypesResponse.Body)), 0)
    | some instanceTypes =>
      match GoMap.get? instanceTypes data.InstanceTypeName.ValueString with
      | none =>
        (some (NonRetryableError ("instance type " ++ data.InstanceTypeName.ValueString
          ++ " not found in available instance types")), 0)
      | some instanceAvailability =>
        let regions : GoMap Region :=
          instanceAvailability.RegionsWithCapacityAvailable.foldl
            (fun regions region => GoMap.set regions region.Name region) GoMap.empty
        match GoMap.get? regions data.RegionName.ValueString with
        | none =>
          (some (RetryableError ("no capacity available in region "
            ++ data.RegionName.ValueString)), capacitySleep)
        | some _ => (none, 0)

/-- The launch request body built by `Create` (lines 185-200). -/
def launchBody (data : InstanceResourceModel) : LaunchInstanceJSONRequestBody :=
  let fileSystemNames : Slice String :=
    match data.FileSystemNames with
    | none => some []
    | some _ => makeStringListFromTf data.FileSystemNames
  let quantity : Int := 1
  { FileSystemNames := some fileSystemNames
    InstanceTypeName := data.InstanceTypeName.ValueString
    Name := data.Name.ValueStringPointer
    Quantity := some quantity
    RegionName := data.RegionName.ValueString
    SshKeyNames := makeStringListFromTf data.SshKeyNames }

/-- Go `InstanceResource.Create`. `diags` are the diagnostics already in the response.
`resp.State.Set` is taken to store the model and to return no diagnostics. -/
def InstanceResource.Create (client : Client) (req : CreateRequest) (diags : Diagnostics) :
    CreateOutcome :=
  if Diagnostics.HasError diags then ⟨diags, none, [], 0⟩
  else
    let data := req.Plan
    let diags := Diagnostics.Append diags req.PlanGet
    if Diagnostics.HasError diags then ⟨diags, none, [], 0⟩
    else
      let r := RetryContext createTimeout (capacityPoll client data)
      let polls := List.replicate r.attempts Call.instanceTypes
      match r.err with
      | some err =>
        ⟨Diagnostics.AddError diags "Instance type unavailable"
          ("Unable to create instance, got error: " ++ err), none, polls, r.elapsed⟩
      | none =>
        let body := launchBody data
        let calls := polls ++ [Call.launchInstance body]
        match client.LaunchInstanceWithResponse body with
        | .error err =>
          ⟨Diagnostics.AddError diags "HTTP Client Error"
            ("Unable to create instance, got error: " ++ err), none, calls, r.elapsed⟩
        | .ok response =>
          if response.StatusCode ≠ 200 then
            ⟨Diagnostics.AddError diags
              ("Failed to create instance. HTTP Status Code: " ++ toString response.StatusCode)
              ("Unable to create instance, got error: " ++ response.Body),
              none, calls, r.elapsed⟩
          else
            match response.JSON200 with
            | none =>
              ⟨Diagnostics.AddError diags "Failed to create instance (no HTTP 200 response body)"
                ("Unable to create instance, got error: " ++ response.Body),
                none, calls, r.elapsed⟩
            | some InstanceIDs =>
              let data :=
                match InstanceIDs with
                | [id] => { data with ID := StringValue id }
                | _ => data
              ⟨diags, some data, calls, r.elapsed⟩

/-- Framework `resource.ReadRequest`: the prior state as decoded by `req.State.Get` and
the diagnostics that decoding returns. -/
structure ReadRequest where
  State : InstanceResourceModel
  StateGet : Diagnostics

/-- Result of a run of `Read`: the diagnostics of the response and the state stored by
`resp.State.Set` (`none` when it was not reached, the prior state is then kept). -/
structure ReadOutcome where
  Diagnostics : Diagnostics
  State : Option InstanceResourceModel
  deriving DecidableEq, Repr

/-- The model built by `Read` for one listed instance (lines 261-285). -/
def instanceModel (x : Instance) : InstanceDataSourceModel :=
  { ID := StringValue x.Id
    Hostname := StringPointerValue x.Hostname
    Ip := StringPointerValue x.Ip
    Name := StringPointerValue x.Name
    Region := { Name := StringValue x.Region.Name, Description := StringValue x.Region.Description }
    FileSystemNames := makeTfStringList x.FileSystemNames
    InstanceType :=
      { Description := StringValue x.InstanceType.Description
        Name := StringValue x.InstanceType.Name
        PriceCentsPerHour := Int64Value x.InstanceType.PriceCentsPerHour
        Specs :=
          { MemoryGib := Int64Value x.InstanceType.Specs.MemoryGib
            StorageGib := Int64Value x.InstanceType.Specs.StorageGib
            Vcpus := Int64Value x.InstanceType.Specs.Vcpus } }
    JupyterToken := StringPointerValue x.JupyterToken
    JupyterUrl := StringPointerValue x.JupyterUrl
    SshKeyNames := makeTfStringList x.SshKeyNames
    Status := StringValue x.Status }

/-- The map from instance id to model that `Read` fills from the listed instances
(lines 259-286). -/
def instancesById (data : List Instance) : GoMap InstanceDataSourceModel :=
  data.foldl (fun instances x => GoMap.set instances x.Id (instanceModel x)) GoMap.empty

/-- Go `InstanceResource.Read`. `diags` are the diagnostics already in the response. -/
def InstanceResource.Read [GoPrintable] (client : Client) (req : ReadRequest)
    (diags : Diagnostics) :
    ReadOutcome :=
  let state := req.State
  let diags := Diagnostics.Append diags req.StateGet
  if Diagnostics.HasError diags then ⟨diags, none⟩
  else
    match client.ListInstancesWithResponse with
    | .error err =>
      ⟨Diagnostics.AddError diags "Client Error"
        ("Unable to read instances " ++ state.ID.String ++ ", got error: " ++ err), none⟩
    | .ok response =>
      match response.JSON200 with
      | none =>
        ⟨Diagnostics.AddError diags "Failed to read instances (no HTTP 200 response body)"
          ("Unable to read instances " ++ state.ID.String ++ ", got response: "
            ++ response.Body), none⟩
      | some data =>
        match GoMap.get? (instancesById data) state.ID.ValueString with
        | some inst =>
          ⟨diags, some { state with
            Name := inst.Name
            RegionName := inst.Region.Name
            FileSystemNames := inst.FileSystemNames
            InstanceTypeName := inst.InstanceType.Name
            SshKeyNames := inst.SshKeyNames }⟩
        | none =>
          ⟨Diagnostics.AddError diags "Failed to read instance"
            ("Unable to read instance " ++ state.ID.String ++ ", got error: "
              ++ response.Body), none⟩

/-- Clock at the start of call number `k`, counted from a round of the refresh loop that
begins at clock `now` with the wait `wait`, when each call before it takes `d` and asks
for a retry. -/
def retryStart (d : Nat) : Nat → Nat → Nat → Nat
  | now, wait, 0 => now + wait
  | now, wait, k + 1 => retryStart d (now + wait + d) (nextWait wait) k

/-- Clock at the start of capacity poll number `k` (from 0) of `Create` when every
earlier poll found no capacity: 0, 2500, 5500, 9500, ... -/
def pollStart (k : Nat) : Nat := retryStart capacitySleep 0 0 k

/-! ## Sample data -/

/-- The table used with the sample data, which is ASCII only: the table of the runes
above U+00FF is not consulted on it. -/
instance samplePrintable : GoPrintable := ⟨fun _ => false⟩

/-- An id with a double quote between the letters `a` and `b`. -/
def quotedId : String := String.mk ['a', Char.ofNat 34, 'b']

/-- An id with the no-break space U+00A0 between the letter `i` and the digit `1`. -/
def spacedId : String := String.mk ['i', Char.ofNat 160, '1']

/-- A region of the provider. -/
def sampleRegion : Region := ⟨"Virginia, USA", "us-east-1"⟩

/-- An instance type of the provider. -/
def sampleType : InstanceType := ⟨"1x GPU", "gpu.1x", 110, ⟨200, 512, 30⟩⟩

/-- Catalog with the single type `gpu.1x` and the given regions with capacity. -/
def sampleCatalog (regions : List Region) : GoMap InstanceTypeAvailability :=
  [("gpu.1x", ⟨sampleType, regions⟩)]

/-- Desired instance of the specification's scenario: type `gpu.1x` in `us-east-1` with
the SSH key `k1`, no name, no filesystem, id not yet known. -/
def samplePlan : InstanceResourceModel :=
  { ID := TfString.unknown
    FileSystemNames := some []
    InstanceTypeName := TfString.value "gpu.1x"
    Name := TfString.null
    RegionName := TfString.value "us-east-1"
    SshKeyNames := some [TfString.value "k1"] }

/-- An instance as listed by the provider, with the given id and name. -/
def sampleInstance (id name : String) : Instance :=
  { FileSystemNames := some []
    Hostname := none
    Id := id
    InstanceType := sampleType
    Ip := none
    JupyterToken := none
    JupyterUrl := none
    Name := some name
    Region := sampleRegion
    SshKeyNames := some ["k1"]
    Status := "active" }

/-- A provider whose catalog lists `gpu.1x` without capacity on the polls before number
`k` and with capacity in `us-east-1` from poll `k` on, which answers a launch with
`launch` and lists the instances `instances`. -/
def sampleClient (k : Nat) (launch : Except String LaunchInstanceResponse)
    (instances : List Instance) : Client :=
  { InstanceTypesWithResponse := fun n =>
      .ok ⟨"", some (sampleCatalog (if n < k then [] else [sampleRegion]))⟩
    LaunchInstanceWithResponse := fun _ => launch
    ListInstancesWithResponse := .ok ⟨"", some instances⟩ }

/-- Whether a request is a launch request. -/
def Call.isLaunch : Call → Bool
  | .launchInstance _ => true
  | .instanceTypes => false

/-! ## Delete and Update of the instance resource -/

/-- API type `lambdalabs.TerminateInstanceJSONRequestBody`. -/
structure TerminateInstanceJSONRequestBody where
  InstanceIds : List String
  deriving DecidableEq, Repr

/-- Response of `TerminateInstanceWithResponse`; `JSON200` is
`Data.TerminatedInstances`. -/
structure TerminateInstanceResponse where
  StatusCode : Nat
  Body : String
  JSON200 : Option (List Instance)
  deriving DecidableEq, Repr

/-- The terminate operation of the remote API as seen by `Delete`: the answer to a
terminate request; an `error` is the Go `err` return value. -/
structure TerminateClient where
  TerminateInstanceWithResponse :
    TerminateInstanceJSONRequestBody → Except String TerminateInstanceResponse

/-- Framework `resource.DeleteRequest`: the prior state as decoded by `req.State.Get`
and the diagnostics that decoding returns. -/
structure DeleteRequest where
  State : InstanceResourceModel
  StateGet : Diagnostics

/-- Result of a run of `Delete`: the diagnostics of the response and the terminate
requests sent, in order. The framework removes the resource from the state after a
`Delete` that reports no error, and keeps it otherwise. -/
structure DeleteOutcome where
  Diagnostics : Diagnostics
  calls : List TerminateInstanceJSONRequestBody
  deriving DecidableEq, Repr

/-- Go `InstanceResource.Delete`. `diags` are the diagnostics already in the response. -/
def InstanceResource.Delete [GoPrintable] (client : TerminateClient) (req : DeleteRequest)
    (diags : Diagnostics) : DeleteOutcome :=
  let data := req.State
  let diags := Diagnostics.Append diags req.StateGet
  if Diagnostics.HasError diags then ⟨diags, []⟩
  else
    let instanceId := data.ID.ValueString
    let body : TerminateInstanceJSONRequestBody := { InstanceIds := [instanceId] }
    match client.TerminateInstanceWithResponse body with
    | .error err =>
      ⟨Diagnostics.AddError diags "HTTP Client Error"
        ("Unable to delete instances " ++ data.ID.String ++ ", got error: " ++ err), [body]⟩
    | .ok response =>
      if response.StatusCode ≠ 200 then
        ⟨Diagnostics.AddError diags "HTTP Client Error, HTTP Status Code: %d"
          ("Unable to delete instances " ++ data.ID.String ++ ", got error: "
            ++ response.Body), [body]⟩
      else
        match response.JSON200 with
        | none =>
          ⟨Diagnostics.AddError diags "Failed to delete instances (no HTTP 200 response body)"
            ("Unable to delete instances " ++ data.ID.String ++ ", got error: "
              ++ response.Body), [body]⟩
        | some terminated =>
          let terminatedIDs : List String :=
            terminated.foldl (fun ids x => ids ++ [x.Id]) []
          let diags :=
            if terminatedIDs.length = 0 then
              Diagnostics.AddError diags "Failed to delete instances"
                ("Unable to delete instances " ++ data.ID.String ++ ", got error: "
                  ++ response.Body)
            else diags
          ⟨diags, [body]⟩

/-- Framework `resource.UpdateRequest`, for a resource whose model is `σ`: the decoded
plan and prior state. -/
structure UpdateRequest (σ : Type) where
  Plan : σ
  State : σ

/-- Result of a run of `Update`, for a resource whose model is `σ`: the diagnostics of
the response, the state stored by `resp.State.Set` (`none` when it is not called, the
prior state is then kept) and the number of requests sent to the remote API. -/
structure UpdateOutcome (σ : Type) where
  Diagnostics : Diagnostics
  State : Option σ
  requests : Nat

/-- Go `InstanceResource.Update`: adds an error and does nothing else. -/
def InstanceResource.Update (_req : UpdateRequest InstanceResourceModel)
    (diags : Diagnostics) : UpdateOutcome InstanceResourceModel :=
  ⟨Diagnostics.AddError diags "Update not supported"
    "Lambda Labs Instance resource does not support updates. please report this issue to the provider developers.",
   none, 0⟩

/-- The state that the framework holds after an operation that started from `prior`:
the state stored by the operation, the prior state when none was stored. -/
def stateAfter {σ : Type} (prior : σ) (stored : Option σ) : σ := stored.getD prior

/-- A character of printable ASCII other than the double quote and the backslash; Go
quoting (`%q`) leaves such a character as it is. -/
def plainChar (c : Char) : Bool :=
  decide (32 ≤ c.toNat ∧ c.toNat < 127 ∧ c.toNat ≠ 34 ∧ c.toNat ≠ 92)

/-! ## ssh_key_resource.go -/

/-- Go `SshKeyResourceModel`: the resource data model of an SSH key. -/
structure SshKeyResourceModel where
  Id : TfString
  Name : TfString
  PublicKey : TfString
  deriving DecidableEq, Repr

/-- API type `lambdalabs.SshKey`, also the `Data` of a successful add-key response. -/
structure SshKey where
  Id : String
  Name : String
  PublicKey : String
  deriving DecidableEq, Repr

/-- API type `lambdalabs.AddSSHKeyJSONRequestBody`; the pointer field is an option. -/
structure AddSSHKeyJSONRequestBody where
  Name : String
  PublicKey : Option String
  deriving DecidableEq, Repr

/-- Response of `AddSSHKeyWithResponse`; `JSON200` is the parsed `Data`. -/
structure AddSSHKeyResponse where
  StatusCode : Nat
  Body : String
  JSON200 : Option SshKey
  deriving DecidableEq, Repr

/-- Response of `ListSSHKeysWithResponse`; `JSON200` is the parsed `Data` list. -/
structure ListSSHKeysResponse where
  Body : String
  JSON200 : Option (List SshKey)
  deriving DecidableEq, Repr

/-- Response of `DeleteSSHKeyWithResponse`. -/
structure DeleteSSHKeyResponse where
  StatusCode : Nat
  Body : String
  deriving DecidableEq, Repr

/-- The remote API as seen by the SSH key resource; an `error` is the Go `err` return
value. -/
structure SshKeyClient where
  AddSSHKeyWithResponse : AddSSHKeyJSONRequestBody → Except String AddSSHKeyResponse
  ListSSHKeysWithResponse : Except String ListSSHKeysResponse
  DeleteSSHKeyWithResponse : String → Except String DeleteSSHKeyResponse

/-- Framework `resource.CreateRequest` of the SSH key resource: the plan as decoded by
`req.Plan.Get` and the diagnostics that decoding returns. -/
structure SshKeyCreateRequest where
  Plan : SshKeyResourceModel
  PlanGet : Diagnostics

/-- Result of a run of `SshKeyResource.Create`: the diagnostics and the state of the
response (`none` when `resp.State.Set` was not reached) and the add-key requests sent. -/
structure SshKeyCreateOutcome where
  Diagnostics : Diagnostics
  State : Option SshKeyResourceModel
  calls : List AddSSHKeyJSONRequestBody
  deriving DecidableEq, Repr

/-- Go `SshKeyResource.Create`. `diags` are the diagnostics already in the response.
`resp.State.Set` is taken to store the model and to return no diagnostics. -/
def SshKeyResource.Create (client : SshKeyClient) (req : SshKeyCreateRequest)
    (diags : Diagnostics) : SshKeyCreateOutcome :=
  if Diagnostics.HasError diags then ⟨diags, none, []⟩
  else
    let data := req.Plan
    let diags := Diagnostics.Append diags req.PlanGet
    if Diagnostics.HasError diags then ⟨diags, none, []⟩
    else
      let body : AddSSHKeyJSONRequestBody :=
        { Name := data.Name.ValueString
          PublicKey := data.PublicKey.ValueStringPointer }
      match client.AddSSHKeyWithResponse body with
      | .error err =>
        ⟨Diagnostics.AddError diags "Client Error"
          ("Unable to create ssh_key, got error: " ++ err), none, [body]⟩
      | .ok response =>
        match response.JSON200 with
        | none =>
          ⟨Diagnostics.AddError diags "Failed to create SSH Key"
            ("Unable to create ssh_key, got error: " ++ response.Body), none, [body]⟩
        | some key =>
          let data : SshKeyResourceModel :=
            { data with
              Name := StringValue key.Name
              PublicKey := StringValue key.PublicKey
              Id := StringValue key.Id }
          ⟨diags, some data, [body]⟩

/-- Framework `resource.ReadRequest` of the SSH key resource: the prior state as decoded
by `req.State.Get` and the diagnostics that decoding returns. -/
structure SshKeyReadRequest where
  State : SshKeyResourceModel
  StateGet : Diagnostics

/-- Result of a run of `SshKeyResource.Read`: the diagnostics of the response and the
state stored by `resp.State.Set` (`none` when it was not reached, the prior state is
then kept). -/
structure SshKeyReadOutcome where
  Diagnostics : Diagnostics
  State : Option SshKeyResourceModel
  deriving DecidableEq, Repr

/-- The loop of `SshKeyResource.Read` (lines 154-162), started at the index `index`: the
index and the entry at which the loop breaks, the first key whose name is `name`;
`none` when the loop ends with `keyIndex == -1`. -/
def findKey (name : String) : List SshKey → Nat → Option (Nat × SshKey)
  | [], _ => none
  | sshKey :: rest, index =>
    if name == sshKey.Name then some (index, sshKey) else findKey name rest (index + 1)

/-- Go `SshKeyResource.Read`. `diags` are the diagnostics already in the response. -/
def SshKeyResource.Read (client : SshKeyClient) (req : SshKeyReadRequest)
    (diags : Diagnostics) : SshKeyReadOutcome :=
  let data := req.State
  let diags := Diagnostics.Append diags req.StateGet
  if Diagnostics.HasError diags then ⟨diags, none⟩
  else
    match client.ListSSHKeysWithResponse with
    | .error err =>
      ⟨Diagnostics.AddError diags "Client Error"
        ("Unable to read ssh_key, got error: " ++ err), none⟩
    | .ok response =>
      match response.JSON200 with
      | none =>
        ⟨Diagnostics.AddError diags "Failed to read SSH Key"
          ("Unable to read ssh_key, got error: " ++ response.Body), none⟩
      | some keys =>
        match findKey data.Name.ValueString keys 0 with
        | none => ⟨diags, none⟩
        | some (_, sshKey) =>
          ⟨diags, some { data with
            Name := StringValue sshKey.Name
            PublicKey := StringValue sshKey.PublicKey }⟩

/-- Go `SshKeyResource.Update`: adds an error and does nothing else. -/
def SshKeyResource.Update (_req : UpdateRequest SshKeyResourceModel)
    (diags : Diagnostics) : UpdateOutcome SshKeyResourceModel :=
  ⟨Diagnostics.AddError diags "Update not supported"
    "SSH Key resource does not support updates. please report this issue to the provider developers.",
   none, 0⟩

/-! ## Schemas and validators -/

/-- An element type of the framework (`types.StringType`, ...). -/
inductive AttrType where
  | StringType
  | Int64Type
  | BoolType
  deriving DecidableEq, Repr

/-- Value of the plugin framework type `types.List`, with elements of type
`types.String`. -/
inductive TfList where
  | null (ElementType : AttrType)
  | unknown (ElementType : AttrType)
  | value (ElementType : AttrType) (elems : List TfString)
  deriving DecidableEq, Repr

/-- Method `IsNull`. -/
def TfList.IsNull : TfList → Bool
  | .null _ => true
  | _ => false

/-- Method `Elements`: the elements of a known list, none for null and unknown. -/
def TfList.Elements : TfList → List TfString
  | .value _ elems => elems
  | _ => []

/-- Go `ListMaxLength`: a schema validator for the length of `types.List`. -/
structure ListMaxLength where
  max : Int
  deriving DecidableEq, Repr

/-- Go `ListMaxLength.ValidateList`, on the configured value `ConfigValue` and the
diagnostics already in the response. -/
def ListMaxLength.ValidateList (m : ListMaxLength) (ConfigValue : TfList)
    (diags : Diagnostics) : Diagnostics :=
  if ConfigValue.IsNull then diags
  else if (ConfigValue.Elements.length : Int) > m.max then
    Diagnostics.AddError diags "List too long"
      ("List is too long, max length is " ++ toString m.max)
  else diags

/-- Go `ListDefaultEmpty`: a schema default value for `types.List` attributes. -/
structure ListDefaultEmpty where
  ElementType : AttrType
  deriving DecidableEq, Repr

/-- A plan modifier of the framework used by the schemas. -/
inductive PlanModifier where
  | RequiresReplace
  | UseStateForUnknown
  deriving DecidableEq, Repr

/-- The kind of a schema attribute. -/
inductive AttributeKind where
  | StringAttribute
  | ListAttribute (ElementType : AttrType)
  deriving DecidableEq, Repr

/-- A schema attribute (`schema.StringAttribute`, `schema.ListAttribute`) with the
fields that the schemas of the provider set. -/
structure Attribute where
  kind : AttributeKind
  MarkdownDescription : String
  Required : Bool := false
  Optional : Bool := false
  Computed : Bool := false
  Default : Option ListDefaultEmpty := none
  Validators : List ListMaxLength := []
  PlanModifiers : List PlanModifier := []
  deriving DecidableEq, Repr

/-- Go `InstanceResource.Schema`: the `Attributes` map, in source order. -/
def InstanceResource.Schema : GoMap Attribute :=
  [ ("id",
      { kind := .StringAttribute
        Computed := true
        MarkdownDescription :=
          "Unique identifier of the instance. valid when `quantity` is 1 (the default)." }),
    ("name",
      { kind := .StringAttribute
        MarkdownDescription := "User-provided name of the instance"
        Optional := true
        PlanModifiers := [.RequiresReplace] }),
    ("ssh_key_names",
      { kind := .ListAttribute .StringType
        MarkdownDescription :=
          "List of SSH Key names to be added to the instance. Currently, exactly one SSH key must be specified."
        Required := true
        Validators := [{ max := 1 }]
        PlanModifiers := [.RequiresReplace] }),
    ("filesystem_names",
      { kind := .ListAttribute .StringType
        MarkdownDescription :=
          "List of filesystem names to be added to the instance. Currently, only one (if any) file system may be specified."
        Computed := true
        Default := some { ElementType := .StringType }
        Validators := [{ max := 1 }]
        PlanModifiers := [.RequiresReplace] }),
    ("instance_type",
      { kind := .StringAttribute
        MarkdownDescription := "Name of an instance type"
        Required := true
        PlanModifiers := [.RequiresReplace] }),
    ("region",
      { kind := .StringAttribute
        MarkdownDescription := "Name of the region where the instance is located"
        Required := true
        PlanModifiers := [.RequiresReplace] }) ]

/-- Go `SshKeyResource.Schema`: the `Attributes` map, in source order. -/
def SshKeyResource.Schema : GoMap Attribute :=
  [ ("id",
      { kind := .StringAttribute
        Computed := true
        MarkdownDescription := "SSH Key ID (read-only)"
        PlanModifiers := [.UseStateForUnknown] }),
    ("name",
      { kind := .StringAttribute
        MarkdownDescription := "SSH Key Name (must be unique within the account)"
        Required := true
        PlanModifiers := [.RequiresReplace] }),
    ("public_key",
      { kind := .StringAttribute
        MarkdownDescription := "SSH Key Public Key"
        Required := true
        PlanModifiers := [.RequiresReplace] }) ]

/-- The framework's handling of a plan modifier when an existing resource is planned to
change (neither created nor destroyed): `RequiresReplace` asks for replacement exactly
when the planned value differs from the value in the state. -/
def PlanModifier.requiresReplace {α : Type} [DecidableEq α] (m : PlanModifier)
    (stateValue planValue : α) : Bool :=
  match m with
  | .RequiresReplace => decide (planValue ≠ stateValue)
  | .UseStateForUnknown => false

/-- Whether the plan modifiers of an attribute ask for the replacement of the resource
when the attribute is planned to change from `stateValue` to `planValue`. -/
def Attribute.requiresReplace {α : Type} [DecidableEq α] (a : Attribute)
    (stateValue planValue : α) : Bool :=
  a.PlanModifiers.any (fun m => m.requiresReplace stateValue planValue)

/-- The framework's validation of a list attribute: each validator of the attribute is
run on the configured value, the diagnostics accumulate. -/
def Attribute.ValidateList (a : Attribute) (ConfigValue : TfList) : Diagnostics :=
  a.Validators.foldl (fun diags m => m.ValidateList ConfigValue diags) []

/-- An SSH key resource as planned: name and public key set, id not yet known. -/
def sampleKeyPlan : SshKeyResourceModel :=
  { Id := TfString.unknown
    Name := TfString.value "k1"
    PublicKey := TfString.value "ssh-ed25519 AAAA" }

/-- A provider of SSH keys that answers an add-key request with `add` and lists the keys
`keys`. -/
def sampleKeyClient (add : Except String AddSSHKeyResponse) (keys : List SshKey) :
    SshKeyClient :=
  { AddSSHKeyWithResponse := fun _ => add
    ListSSHKeysWithResponse := .ok ⟨"", some keys⟩
    DeleteSSHKeyWithResponse := fun _ => .ok ⟨200, ""⟩ }

/-! ## Delete and ImportState of the SSH key resource, ImportState of the instance resource -/

/-- Framework `resource.DeleteRequest` of the SSH key resource: the prior state as
decoded by `req.State.Get` and the diagnostics that decoding returns. -/
structure SshKeyDeleteRequest where
  State : SshKeyResourceModel
  StateGet : Diagnostics

/-- Result of a run of `SshKeyResource.Delete`: the diagnostics of the response and the
ids of the delete requests sent, in order. -/
structure SshKeyDeleteOutcome where
  Diagnostics : Diagnostics
  calls : List String
  deriving DecidableEq, Repr

/-- Go `SshKeyResource.Delete`. `diags` are the diagnostics already in the response. -/
def SshKeyResource.Delete (client : SshKeyClient) (req : SshKeyDeleteRequest)
    (diags : Diagnostics) : SshKeyDeleteOutcome :=
  let data := req.State
  let diags := Diagnostics.Append diags req.StateGet
  if Diagnostics.HasError diags then ⟨diags, []⟩
  else
    match client.DeleteSSHKeyWithResponse data.Id.ValueString with
    | .error err =>
      ⟨Diagnostics.AddError diags "Client Error"
        ("Unable to delete ssh_key, got error: " ++ err), [data.Id.ValueString]⟩
    | .ok response =>
      if response.StatusCode ≠ 200 then
        ⟨Diagnostics.AddError diags "Failed to delete SSH Key"
          ("Unable to delete ssh_key, got error: " ++ response.Body), [data.Id.ValueString]⟩
      else ⟨diags, [data.Id.ValueString]⟩

/-- Go `InstanceResource.ImportState`: the attribute path and the id that it passes to
`resource.ImportStatePassthroughID`, for the imported id `id`. -/
def InstanceResource.ImportState (id : String) : String × String := ("ids", id)

/-- Go `SshKeyResource.ImportState`: the attribute path and the id that it passes to
`resource.ImportStatePassthroughID`, for the imported id `id`. -/
def SshKeyResource.ImportState (id : String) : String × String := ("id", id)

/-! ## validators.go: the default of a list attribute -/

/-- Go `ListDefaultEmpty.Description`. -/
def ListDefaultEmpty.Description (_d : ListDefaultEmpty) : String :=
  "Default Value of empty list for List fields"

/-- Constructor `types.ListNull`. -/
def ListNull (ElementType : AttrType) : TfList := TfList.null ElementType

/-- Go `ListDefaultEmpty.DefaultList`: the `PlanValue` that it stores in the response
(the request is not read). -/
def ListDefaultEmpty.DefaultList (d : ListDefaultEmpty) : TfList := ListNull d.ElementType

/-! ## helpers.go: optional integers; filesystem_data_source.go -/

/-- Constructor `types.Int64PointerValue`: null for a nil pointer. -/
def Int64PointerValue : Option Int → TfInt64
  | none => .null
  | some n => .value n

/-- Go `makeOptionalTfInt64`: converts a pointer to an int to a `types.Int64`. The
conversion `int64(*rawInt)` widens without loss. -/
def makeOptionalTfInt64 (rawInt : Option Int) : TfInt64 :=
  let val : Int :=
    match rawInt with
    | some n => n
    | none => 0
  Int64PointerValue (some val)

/-- Value of the plugin framework type `types.Bool`. -/
inductive TfBool where
  | null
  | unknown
  | value (b : Bool)
  deriving DecidableEq, Repr

/-- Constructor `types.BoolValue`. -/
def BoolValue (b : Bool) : TfBool := .value b

/-- Go `filesystemModel`: maps filesystem schema data. -/
structure filesystemModel where
  ID : TfString
  Name : TfString
  IsInUse : TfBool
  BytesUsed : TfInt64
  Created : TfString
  Region : RegionModel
  MountPoint : TfString
  deriving DecidableEq, Repr

/-- API type `lambdalabs.FileSystem`; the pointer field is an option. -/
structure FileSystem where
  BytesUsed : Option Int
  Created : String
  Id : String
  IsInUse : Bool
  MountPoint : String
  Name : String
  Region : Region
  deriving DecidableEq, Repr

/-- Response of `ListFileSystemsWithResponse`; `JSON200` is the parsed `Data` list. -/
structure ListFileSystemsResponse where
  Body : String
  JSON200 : Option (List FileSystem)
  deriving DecidableEq, Repr

/-- Result of a run of `filesystemsDataSource.Read`: the diagnostics of the response and
the `Filesystems` slice of the state stored by `resp.State.Set` (`none` when it was not
reached). -/
structure FilesystemsReadOutcome where
  Diagnostics : Diagnostics
  State : Option (Slice filesystemModel)
  deriving DecidableEq, Repr

/-- The model built by `filesystemsDataSource.Read` for one listed filesystem
(lines 132-143). -/
def filesystemState (filesystem : FileSystem) : filesystemModel :=
  { ID := StringValue filesystem.Id
    Name := StringValue filesystem.Name
    IsInUse := BoolValue filesystem.IsInUse
    BytesUsed := makeOptionalTfInt64 filesystem.BytesUsed
    Created := StringValue filesystem.Created
    Region :=
      { Name := StringValue filesystem.Region.Name
        Description := StringValue filesystem.Region.Description }
    MountPoint := StringValue filesystem.MountPoint }

/-- Go `filesystemsDataSource.Read`, on the answer `list` of the provider to
`ListFileSystemsWithResponse`. `diags` are the diagnostics already in the response;
`resp.State.Set` is taken to store the model and to return no diagnostics. -/
def filesystemsDataSource.Read (list : Except String ListFileSystemsResponse)
    (diags : Diagnostics) : FilesystemsReadOutcome :=
  match list with
  | .error err =>
    ⟨Diagnostics.AddError diags "Failed to read file systems. Lambda Labs Client Error" err,
      none⟩
  | .ok response =>
    match response.JSON200 with
    | none =>
      ⟨Diagnostics.AddError diags "Unable to Read Lambda Labs Filesystems" response.Body, none⟩
    | some data =>
      let Filesystems : Slice filesystemModel :=
        data.foldl (fun fs filesystem => some (Slice.elems fs ++ [filesystemState filesystem]))
          none
      ⟨diags, some Filesystems⟩

/-! ## instance_data_source.go -/

/-- Framework `datasource.ReadRequest` of the instance data source: the configuration as
decoded by `req.Config.Get` and the diagnostics that decoding returns. -/
structure InstanceDataSourceReadRequest where
  Config : InstanceDataSourceModel
  ConfigGet : Diagnostics

/-- Result of a run of `instanceDataSource.Read`: the diagnostics of the response and
the state stored by `resp.State.Set` (`none` when it was not reached). -/
structure InstanceDataSourceReadOutcome where
  Diagnostics : Diagnostics
  State : Option InstanceDataSourceModel
  deriving DecidableEq, Repr

/-- The loop of `instanceDataSource.Read` (lines 181-220): the listed instance at which
the loop stops, the first one whose id is `id`; `none` when the loop runs to its end. -/
def findInstance (id : String) : List Instance → Option Instance
  | [] => none
  | x :: rest => if id != x.Id then findInstance id rest else some x

/-- Go `instanceDataSource.Read`. `diags` are the diagnostics already in the response;
the model built for the matching instance (lines 187-211) is the one that
`InstanceResource.Read` builds, `instanceModel`. -/
def instanceDataSource.Read (client : Client) (req : InstanceDataSourceReadRequest)
    (diags : Diagnostics) : InstanceDataSourceReadOutcome :=
  if Diagnostics.HasError diags then ⟨diags, none⟩
  else
    let state := req.Config
    let diags := Diagnostics.Append diags req.ConfigGet
    if Diagnostics.HasError diags then ⟨diags, none⟩
    else
      match client.ListInstancesWithResponse with
      | .error err =>
        ⟨Diagnostics.AddError diags
          "Unable to Read Lambda Labs Instances. Lambda Labs Client Error" err, none⟩
      | .ok r =>
        match r.JSON200 with
        | none =>
          ⟨Diagnostics.AddError diags "Unable to Read Lambda Labs Instances" r.Body, none⟩
        | some data =>
          match findInstance state.ID.ValueString data with
          | some x => ⟨diags, some (instanceModel x)⟩
          | none =>
            ⟨Diagnostics.AddError diags "Unable to Read Lambda Labs Instances"
              ("Instance with ID " ++ state.ID.ValueString ++ " not found"), none⟩

/-! ## provider.go and pgk/lambdalabs/client.go -/

/-- Method `IsNull` of `types.String`. -/
def TfString.IsNull : TfString → Bool
  | .null => true
  | _ => false

/-- Method `IsUnknown` of `types.String`. -/
def TfString.IsUnknown : TfString → Bool
  | .unknown => true
  | _ => false

/-- Go `lambdalabsProviderModel`: maps provider schema data to a Go type. -/
structure lambdalabsProviderModel where
  Host : TfString
  ApiKey : TfString
  deriving DecidableEq, Repr

/-- The two environment variables read by `Configure`, as `os.Getenv` returns them (the
empty string for a variable that is not set). -/
structure Environment where
  LAMBDALABS_HOST : String
  LAMBDALABS_API_KEY : String
  deriving DecidableEq, Repr

/-- The API client `*lambdalabs.ClientWithResponses`: its server URL and the bearer token
that its request editor adds. -/
structure ClientWithResponses where
  Server : String
  BearerToken : String
  deriving DecidableEq, Repr

/-- Modelled from the spec: the generated constructor `NewClientWithResponses` of
`pgk/lambdalabs` and the bearer token provider are not among the sources. The spec names
the missing credential as the only failure of the client construction; so the
constructor succeeds, with the server URL given a trailing slash and the token stored. -/
def NewClientWithResponses (server token : String) : Except String ClientWithResponses :=
  .ok ⟨if server.toList.getLast? = some '/' then server else server ++ "/", token⟩

/-- Go `NewAuthenticatedClient`: creates a new API client with a bearer token. -/
def NewAuthenticatedClient (host apiKey : String) : Except String ClientWithResponses :=
  let host := if host = "" then "https://cloud.lambdalabs.com/api/v1" else host
  if apiKey = "" then .error "missing Lambda Labs API Key"
  else NewClientWithResponses host apiKey

/-- Framework `provider.ConfigureRequest`: the configuration as decoded by
`req.Config.Get` and the diagnostics that decoding returns. -/
structure ConfigureRequest where
  Config : lambdalabsProviderModel
  ConfigGet : Diagnostics

/-- Result of a run of `Configure`: the diagnostics of the response and the client made
available to data sources and to resources (`none` when not set). -/
structure ConfigureOutcome where
  Diagnostics : Diagnostics
  DataSourceData : Option ClientWithResponses
  ResourceData : Option ClientWithResponses
  deriving DecidableEq, Repr

/-- Go `lambdalabsProvider.Configure`, in the environment `env`. `diags` are the
diagnostics already in the response. `AddAttributeError` is recorded as an error
diagnostic with its summary and detail (the attribute path is not recorded). -/
def lambdalabsProvider.Configure (env : Environment) (req : ConfigureRequest)
    (diags : Diagnostics) : ConfigureOutcome :=
  let config := req.Config
  let diags := Diagnostics.Append diags req.ConfigGet
  if Diagnostics.HasError diags then ⟨diags, none, none⟩
  else
    let diags :=
      if config.Host.IsUnknown then
        Diagnostics.AddError diags "Unknown Lambda Labs API Host"
          ("The provider cannot create the Lambda Labs API client as there is an unknown configuration value for the Lambda Labs API host. "
            ++ "Either target apply the source of the value first, set the value statically in the configuration, or use the LAMBDALABS_HOST environment variable.")
      else diags
    let diags :=
      if config.ApiKey.IsUnknown then
        Diagnostics.AddError diags "Unknown Lambda Labs API Key"
          ("The provider cannot create the Lambda Labs API client as there is an unknown configuration value for the Lambda Labs API API key. "
            ++ "Either target apply the source of the value first, set the value statically in the configuration, or use the LAMBDALABS_API_KEY environment variable.")
      else diags
    if Diagnostics.HasError diags then ⟨diags, none, none⟩
    else
      let host := env.LAMBDALABS_HOST
      let apiKey := env.LAMBDALABS_API_KEY
      let host := if !config.Host.IsNull then config.Host.ValueString else host
      let apiKey := if !config.ApiKey.IsNull then config.ApiKey.ValueString else apiKey
      let diags :=
        if apiKey = "" then
          Diagnostics.AddError diags "Missing Lambda Labs API Key"
            ("The provider cannot create the Lambda Labs API client as there is a missing or empty value for the Lambda Labs API key. "
              ++ "Set the key value in the configuration or use the LAMBDALABS_API_KEY environment variable. "
              ++ "If either is already set, ensure the value is not empty.")
        else diags
      if Diagnostics.HasError diags then ⟨diags, none, none⟩
      else
        match NewAuthenticatedClient host apiKey with
        | .error err =>
          ⟨Diagnostics.AddError diags "Unable to Create Lambda Labs API Client"
            ("An unexpected error occurred when creating the Lambda Labs API client. "
              ++ "If the error is not clear, please contact the provider developers.\n\n"
              ++ "Lambda Labs Client Error: " ++ err), none, none⟩
        | .ok lambdaclient => ⟨diags, some lambdaclient, some lambdaclient⟩

/-- A configuration of the instance data source that asks for the instance `id`; the
other fields are null. -/
def sampleDataSourceConfig (id : String) : InstanceDataSourceModel :=
  { FileSystemNames := none
    Hostname := TfString.null
    ID := TfString.value id
    InstanceType :=
      { Description := TfString.null
        Name := TfString.null
        PriceCentsPerHour := TfInt64.null
        Specs := { MemoryGib := TfInt64.null, StorageGib := TfInt64.null, Vcpus := TfInt64.null } }
    Ip := TfString.null
    JupyterToken := TfString.null
    JupyterUrl := TfString.null
    Name := TfString.null
    Region := { Description := TfString.null, Name := TfString.null }
    SshKeyNames := none
    Status := TfString.null }

/-! ## Auxiliary facts -/

theorem HasError_AddError (d : Diagnostics) (s t : String) :
    Diagnostics.HasError (Diagnostics.AddError d s t) = true := by
  unfold Diagnostics.AddError Diagnostics.Append
  simp only [List.foldl_cons, List.foldl_nil]
  split
  · rename_i h
    have hm : (⟨Severity.error, s, t⟩ : Diagnostic) ∈ d := by simpa using h
    simp only [Diagnostics.HasError, List.any_eq_true]
    exact ⟨_, hm, by simp⟩
  · simp [Diagnostics.HasError]

theorem lookup_foldl_set {α V : Type} (key : α → String) (val : α → V) (k : String)
    (xs : List α) (m : GoMap V) :
    GoMap.get? (xs.foldl (fun acc x => GoMap.set acc (key x) (val x)) m) k =
      match xs.reverse.find? (fun x => k == key x) with
      | some x => some (val x)
      | none => GoMap.get? m k := by
  induction xs generalizing m with
  | nil => simp
  | cons x xs ih =>
    simp only [List.foldl_cons, List.reverse_cons, List.find?_append]
    rw [ih]
    cases h : List.find? (fun x => k == key x) xs.reverse with
    | some y => simp
    | none =>
      simp only [Option.none_or, List.find?_cons, List.find?_nil, GoMap.get?, GoMap.set,
        List.lookup_cons]
      cases hk : k == key x <;> simp

theorem get?_foldl_set_isSome {α V : Type} (key : α → String) (val : α → V) (k : String)
    (xs : List α) :
    (GoMap.get? (xs.foldl (fun acc x => GoMap.set acc (key x) (val x)) GoMap.empty) k).isSome
      = true ↔ ∃ x ∈ xs, key x = k := by
  rw [lookup_foldl_set]
  cases h : List.find? (fun x => k == key x) xs.reverse with
  | some y =>
    have hm := List.mem_of_find?_eq_some h
    have hp := List.find?_some h
    simp only [Option.isSome_some, true_iff]
    exact ⟨y, by simpa using hm, by simpa using Eq.symm (by simpa using hp)⟩
  | none =>
    simp only [GoMap.get?, GoMap.empty, List.lookup_nil, Option.isSome_none]
    refine ⟨fun hf => by simp at hf, ?_⟩
    rintro ⟨x, hx, rfl⟩
    have := List.find?_eq_none.mp h x (by simpa using hx)
    simp at this

theorem nextWait_ge (wait : Nat) : minTimeout ≤ nextWait wait := by
  unfold nextWait minTimeout maxWait
  simp only
  split
  · omega
  · split <;> omega

theorem retryLoop_fuel_suffices (timeout : Nat) (f : Nat → Option RetryError × Nat)
    (fuel now wait i : Nat) (last : Option String)
    (h : timeout ≤ now + wait + minTimeout * fuel) :
    (retryLoop timeout f fuel now wait i last).isSome = true := by
  induction fuel generalizing now wait i last with
  | zero =>
    have : timeout ≤ now + wait := by simpa using h
    simp [retryLoop, this]
  | succ fuel ih =>
    unfold retryLoop
    split
    · rfl
    · simp only
      split
      · rfl
      · split
        · rfl
        · split
          · split
            · rfl
            · apply ih
              have := nextWait_ge wait
              rw [Nat.mul_succ] at h
              omega
          · rfl

theorem RetryContext_eq (timeout : Nat) (f : Nat → Option RetryError × Nat) :
    retryLoop timeout f (timeout / minTimeout + 2) 0 0 0 none
      = some (RetryContext timeout f) := by
  have h := retryLoop_fuel_suffices timeout f (timeout / minTimeout + 2) 0 0 0 none (by
    have := Nat.lt_div_mul_add (a := timeout) (b := minTimeout) (by decide)
    unfold minTimeout at *
    omega)
  unfold RetryContext
  cases hr : retryLoop timeout f (timeout / minTimeout + 2) 0 0 0 none with
  | none => rw [hr] at h; simp at h
  | some x => rfl

theorem retryLoop_cases (timeout : Nat) (f : Nat → Option RetryError × Nat)
    (fuel now wait i : Nat) (last : Option String) (out : RetryOutcome)
    (h : retryLoop timeout f fuel now wait i last = some out) :
    (out.err = none ∧ i < out.attempts ∧ (f (out.attempts - 1)).1 = none)
    ∨ (∃ e, (f (out.attempts - 1)).1 = some e ∧ e.Retryable = false ∧ out.err = some e.Err
        ∧ i < out.attempts)
    ∨ (out.err.isSome = true ∧ timeout ≤ out.elapsed) := by
  induction fuel generalizing now wait i last with
  | zero =>
    unfold retryLoop at h
    split at h
    · cases h
      exact Or.inr (Or.inr ⟨rfl, le_max_right _ _⟩)
    · cases h
  | succ fuel ih =>
    unfold retryLoop at h
    split at h
    · cases h
      exact Or.inr (Or.inr ⟨rfl, le_max_right _ _⟩)
    · simp only at h
      split at h
      · cases h
        exact Or.inr (Or.inr ⟨rfl, Nat.le_add_right _ _⟩)
      · split at h
        · rename_i hf
          cases h
          exact Or.inl ⟨rfl, Nat.lt_succ_self _, by simpa using hf⟩
        · rename_i e hf
          split at h
          · split at h
            · rename_i ht
              cases h
              exact Or.inr (Or.inr ⟨rfl, ht⟩)
            · rcases ih _ _ _ _ h with h1 | h2 | h3
              · exact Or.inl ⟨h1.1, by omega, h1.2.2⟩
              · obtain ⟨e2, a, b, c, d⟩ := h2
                exact Or.inr (Or.inl ⟨e2, a, b, c, by omega⟩)
              · exact Or.inr (Or.inr h3)
          · rename_i hr
            cases h
            exact Or.inr (Or.inl ⟨e, by simpa using hf, by simpa using hr, rfl,
              Nat.lt_succ_self _⟩)

theorem RetryContext_cases (timeout : Nat) (f : Nat → Option RetryError × Nat) :
    ((RetryContext timeout f).err = none ∧ 0 < (RetryContext timeout f).attempts
      ∧ (f ((RetryContext timeout f).attempts - 1)).1 = none)
    ∨ (∃ e, (f ((RetryContext timeout f).attempts - 1)).1 = some e ∧ e.Retryable = false
        ∧ (RetryContext timeout f).err = some e.Err ∧ 0 < (RetryContext timeout f).attempts)
    ∨ ((RetryContext timeout f).err.isSome = true ∧ timeout ≤ (RetryContext timeout f).elapsed) :=
  retryLoop_cases timeout f _ 0 0 0 none _ (RetryContext_eq timeout f)

theorem RetryContext_first_final (timeout : Nat) (f : Nat → Option RetryError × Nat)
    (e : RetryError) (d : Nat) (ht : 0 < timeout) (hf : f 0 = (some e, d))
    (hd : d ≤ timeout + refreshGracePeriod) (hr : e.Retryable = false) :
    RetryContext timeout f = ⟨some e.Err, 1, d⟩ := by
  have h := RetryContext_eq timeout f
  rw [show timeout / minTimeout + 2 = (timeout / minTimeout + 1) + 1 from rfl] at h
  unfold retryLoop at h
  have h1 : ¬ timeout ≤ 0 + 0 := by omega
  have h2 : ¬ timeout + refreshGracePeriod < 0 + 0 + d := by omega
  simp only [h1, if_false, hf, h2, hr] at h
  simpa using h.symm

theorem retryStart_ge (d : Nat) (k now wait : Nat) : now + wait ≤ retryStart d now wait k := by
  induction k generalizing now wait with
  | zero => simp [retryStart]
  | succ k ih =>
    have := ih (now + wait + d) (nextWait wait)
    simp only [retryStart]
    omega

theorem retryLoop_succeeds_after (timeout : Nat) (f : Nat → Option RetryError × Nat)
    (msg : String) (d k : Nat) :
    ∀ (fuel now wait i : Nat) (last : Option String),
      k < fuel →
      (∀ j, j < k → f (i + j) = (some (RetryableError msg), d)) →
      f (i + k) = (none, 0) →
      retryStart d now wait k < timeout →
      retryLoop timeout f fuel now wait i last
        = some ⟨none, i + k + 1, retryStart d now wait k⟩ := by
  induction k with
  | zero =>
    intro fuel now wait i last hfuel _ hk ht
    obtain ⟨fuel, rfl⟩ : ∃ n, fuel = n + 1 := ⟨fuel - 1, by omega⟩
    simp only [retryStart] at ht
    have h1 : ¬ timeout ≤ now + wait := by omega
    have h2 : ¬ timeout + refreshGracePeriod < now + wait := by omega
    simp only [Nat.add_zero] at hk
    simp [retryLoop, h1, hk, h2, retryStart]
  | succ k ih =>
    intro fuel now wait i last hfuel hj hk ht
    obtain ⟨fuel, rfl⟩ : ∃ n, fuel = n + 1 := ⟨fuel - 1, by omega⟩
    simp only [retryStart] at ht
    have hge := retryStart_ge d k (now + wait + d) (nextWait wait)
    have h0 := hj 0 (by omega)
    simp only [Nat.add_zero] at h0
    have h1 : ¬ timeout ≤ now + wait := by omega
    have h2 : ¬ timeout + refreshGracePeriod < now + wait + d := by omega
    have h3 : ¬ timeout ≤ now + wait + d := by omega
    have ih2 := ih fuel (now + wait + d) (nextWait wait) (i + 1) (some msg) (by omega)
      (fun j hjk => by
        have := hj (j + 1) (by omega)
        rwa [show i + (j + 1) = i + 1 + j by omega] at this)
      (by rwa [show i + (k + 1) = i + 1 + k by omega] at hk) ht
    unfold retryLoop
    simp only [h1, if_false, h0, h2, h3, RetryableError, if_true]
    rw [ih2]
    simp only [retryStart]
    congr 2
    omega

theorem retryLoop_never (timeout : Nat) (f : Nat → Option RetryError × Nat)
    (msg : String) (d : Nat) (hd : d ≤ refreshGracePeriod) :
    ∀ (fuel now wait i : Nat) (last : Option String),
      timeout ≤ now + wait + minTimeout * fuel →
      (∀ j, f (i + j) = (some (RetryableError msg), d)) →
      ∃ n e, retryLoop timeout f fuel now wait i last
          = some ⟨some (if n = 0 then last.getD timeoutErrorText else msg), i + n, e⟩
        ∧ timeout ≤ e
        ∧ (∀ j, j < n → retryStart d now wait j < timeout)
        ∧ timeout ≤ retryStart d now wait n := by
  intro fuel
  induction fuel with
  | zero =>
    intro now wait i last hfuel _
    have h1 : timeout ≤ now + wait := by simpa using hfuel
    exact ⟨0, max now timeout, by simp [retryLoop, h1], le_max_right _ _,
      fun j hj => by omega, by simpa [retryStart] using h1⟩
  | succ fuel ih =>
    intro now wait i last hfuel hf
    by_cases h1 : timeout ≤ now + wait
    · exact ⟨0, max now timeout, by simp [retryLoop, h1], le_max_right _ _,
        fun j hj => by omega, by simpa [retryStart] using h1⟩
    · have h0 := hf 0
      simp only [Nat.add_zero] at h0
      have h2 : ¬ timeout + refreshGracePeriod < now + wait + d := by omega
      by_cases h3 : timeout ≤ now + wait + d
      · refine ⟨1, now + wait + d, ?_, h3, ?_, ?_⟩
        · unfold retryLoop
          simp [h1, h0, h2, h3, RetryableError]
        · intro j hj
          obtain rfl : j = 0 := by omega
          simp only [retryStart]
          omega
        · simp only [retryStart]
          omega
      · have hw := nextWait_ge wait
        obtain ⟨n, e, hr, he, hlt, hge⟩ := ih (now + wait + d) (nextWait wait) (i + 1)
          (some msg) (by rw [Nat.mul_succ] at hfuel; omega)
          (fun j => by
            have := hf (j + 1)
            rwa [show i + (j + 1) = i + 1 + j by omega] at this)
        refine ⟨n + 1, e, ?_, he, ?_, ?_⟩
        · unfold retryLoop
          simp only [h1, if_false, h0, h2, h3, RetryableError, if_true]
          rw [hr]
          simp only [Option.getD_some, ite_self, Nat.add_one_ne_zero, if_false]
          congr 2
          omega
        · intro j hj
          cases j with
          | zero => simp only [retryStart]; omega
          | succ j => simp only [retryStart]; exact hlt j (by omega)
        · simpa only [retryStart] using hge

theorem RetryContext_never (timeout : Nat) (f : Nat → Option RetryError × Nat)
    (msg : String) (d : Nat) (hd : d ≤ refreshGracePeriod) (ht : 0 < timeout)
    (hf : ∀ j, f j = (some (RetryableError msg), d)) :
    ∃ n e, RetryContext timeout f = ⟨some msg, n, e⟩
      ∧ 0 < n ∧ timeout ≤ e
      ∧ (∀ j, j < n → retryStart d 0 0 j < timeout)
      ∧ timeout ≤ retryStart d 0 0 n := by
  obtain ⟨n, e, hr, he, hlt, hge⟩ := retryLoop_never timeout f msg d hd
    (timeout / minTimeout + 2) 0 0 0 none (by
      have := Nat.lt_div_mul_add (a := timeout) (b := minTimeout) (by decide)
      unfold minTimeout at *
      omega)
    (fun j => by simpa using hf j)
  have hn : n ≠ 0 := by
    rintro rfl
    simp only [retryStart] at hge
    omega
  rw [RetryContext_eq] at hr
  refine ⟨n, e, ?_, Nat.pos_of_ne_zero hn, he, hlt, hge⟩
  simpa [hn] using hr

theorem RetryContext_succeeds_after (timeout : Nat) (f : Nat → Option RetryError × Nat)
    (msg : String) (d k : Nat)
    (hj : ∀ j, j < k → f j = (some (RetryableError msg), d))
    (hk : f k = (none, 0)) (ht : retryStart d 0 0 k < timeout) (hd : minTimeout ≤ d) :
    RetryContext timeout f = ⟨none, k + 1, retryStart d 0 0 k⟩ := by
  have hge : ∀ k now wait, now + wait + d * k ≤ retryStart d now wait k := by
    intro k
    induction k with
    | zero => intro now wait; simp [retryStart]
    | succ k ih =>
      intro now wait
      have := ih (now + wait + d) (nextWait wait)
      simp only [retryStart]
      rw [Nat.mul_succ]
      omega
  have h := retryLoop_succeeds_after timeout f msg d k (timeout / minTimeout + 2) 0 0 0 none
    (by
      have h1 := hge k 0 0
      have h2 : minTimeout * k ≤ d * k := Nat.mul_le_mul_right k hd
      have h3 : minTimeout * k < timeout := by omega
      have h4 : k ≤ timeout / minTimeout := by
        rw [Nat.le_div_iff_mul_le (by decide)]
        rw [Nat.mul_comm]
        omega
      omega)
    (fun j hjk => by simpa using hj j hjk) (by simpa using hk) ht
  rw [RetryContext_eq] at h
  simpa using h

theorem capacityPoll_unknown (client : Client) (data : InstanceResourceModel) (i : Nat)
    (resp : InstanceTypesResponse) (cat : GoMap InstanceTypeAvailability)
    (h : client.InstanceTypesWithResponse i = .ok resp) (hj : resp.JSON200 = some cat)
    (hk : GoMap.get? cat data.InstanceTypeName.ValueString = none) :
    capacityPoll client data i
      = (some (NonRetryableError ("instance type " ++ data.InstanceTypeName.ValueString
          ++ " not found in available instance types")), 0) := by
  simp [capacityPoll, h, hj, hk]

theorem capacityPoll_known (client : Client) (data : InstanceResourceModel) (i : Nat)
    (resp : InstanceTypesResponse) (cat : GoMap InstanceTypeAvailability)
    (avail : InstanceTypeAvailability)
    (h : client.InstanceTypesWithResponse i = .ok resp) (hj : resp.JSON200 = some cat)
    (hk : GoMap.get? cat data.InstanceTypeName.ValueString = some avail) :
    capacityPoll client data i
      = if ∃ r ∈ avail.RegionsWithCapacityAvailable, r.Name = data.RegionName.ValueString
        then (none, 0)
        else (some (RetryableError ("no capacity available in region "
          ++ data.RegionName.ValueString)), capacitySleep) := by
  have hs := get?_foldl_set_isSome (fun r : Region => r.Name) (fun r => r)
    data.RegionName.ValueString avail.RegionsWithCapacityAvailable
  simp only [capacityPoll, h, hj, hk]
  split
  · rename_i hn
    rw [hn] at hs
    have : ¬ ∃ r ∈ avail.RegionsWithCapacityAvailable, r.Name = data.RegionName.ValueString :=
      fun hx => by simpa using hs.mpr hx
    rw [if_neg this]
  · rename_i v hv
    rw [hv] at hs
    rw [if_pos (hs.mp rfl)]

theorem HasError_nil : Diagnostics.HasError [] = false := rfl

theorem Append_nil (d : Diagnostics) : Diagnostics.Append d [] = d := rfl

theorem Create_prior_error (client : Client) (req : CreateRequest) (diags : Diagnostics)
    (h : Diagnostics.HasError diags = true
      ∨ Diagnostics.HasError (Diagnostics.Append diags req.PlanGet) = true) :
    (InstanceResource.Create client req diags).State = none
    ∧ (InstanceResource.Create client req diags).calls = []
    ∧ (InstanceResource.Create client req diags).elapsed = 0
    ∧ Diagnostics.HasError (InstanceResource.Create client req diags).Diagnostics = true := by
  unfold InstanceResource.Create
  by_cases h1 : Diagnostics.HasError diags = true
  · simp [h1]
  · have h2 : Diagnostics.HasError (Diagnostics.Append diags req.PlanGet) = true := by
      rcases h with h | h
      · exact absurd h h1
      · exact h
    simp [h1, h2]

theorem Create_probe_error (client : Client) (req : CreateRequest) (diags : Diagnostics)
    (err : String)
    (h1 : Diagnostics.HasError diags = false)
    (h2 : Diagnostics.HasError (Diagnostics.Append diags req.PlanGet) = false)
    (hr : (RetryContext createTimeout (capacityPoll client req.Plan)).err = some err) :
    InstanceResource.Create client req diags
      = ⟨Diagnostics.AddError (Diagnostics.Append diags req.PlanGet) "Instance type unavailable"
          ("Unable to create instance, got error: " ++ err), none,
         List.replicate (RetryContext createTimeout (capacityPoll client req.Plan)).attempts
          Call.instanceTypes,
         (RetryContext createTimeout (capacityPoll client req.Plan)).elapsed⟩ := by
  unfold InstanceResource.Create
  simp [h1, h2, hr]

theorem get?_eq_none_iff {V : Type} (m : GoMap V) (k : String) :
    GoMap.get? m k = none ↔ k ∉ m.map Prod.fst := by
  simp only [GoMap.get?, List.lookup_eq_none_iff, List.mem_map, not_exists, not_and]
  constructor
  · intro h p hp hk
    have := h p hp
    simp [hk] at this
  · intro h p hp
    have := h p hp
    simpa [bne_iff_ne] using fun hk : k = p.1 => this hk.symm

/-! ## Create: capacity probing -/

/-- C1: when the plan's instance type is not a key of the catalog that the provider
returns, the first capacity poll returns a non-retryable error, and `Create` reports an
error, sends no launch request and writes no state; it returns at once (clock 0), the
single catalog request being the only request sent. -/
theorem create_unknown_instance_type (client : Client) (req : CreateRequest)
    (diags : Diagnostics) (resp : InstanceTypesResponse) (cat : GoMap InstanceTypeAvailability)
    (h : client.InstanceTypesWithResponse 0 = .ok resp) (hj : resp.JSON200 = some cat)
    (hk : req.Plan.InstanceTypeName.ValueString ∉ cat.map Prod.fst) :
    (∃ e, (capacityPoll client req.Plan 0).1 = some e ∧ e.Retryable = false)
    ∧ Diagnostics.HasError (InstanceResource.Create client req diags).Diagnostics = true
    ∧ (InstanceResource.Create client req diags).State = none
    ∧ (∀ body, Call.launchInstance body ∉ (InstanceResource.Create client req diags).calls)
    ∧ (InstanceResource.Create client req diags).elapsed = 0
    ∧ (Diagnostics.HasError diags = false →
        Diagnostics.HasError (Diagnostics.Append diags req.PlanGet) = false →
        (InstanceResource.Create client req diags).calls = [Call.instanceTypes]) := by
  have hp := capacityPoll_unknown client req.Plan 0 resp cat h hj
    ((get?_eq_none_iff _ _).mpr hk)
  refine ⟨⟨_, by rw [hp], rfl⟩, ?_⟩
  by_cases h1 : Diagnostics.HasError diags = true
  · obtain ⟨a, b, c, d⟩ := Create_prior_error client req diags (Or.inl h1)
    refine ⟨d, a, ?_, c, ?_⟩
    · intro body; rw [b]; simp
    · intro h; rw [h] at h1; cases h1
  · by_cases h2 : Diagnostics.HasError (Diagnostics.Append diags req.PlanGet) = true
    · obtain ⟨a, b, c, d⟩ := Create_prior_error client req diags (Or.inr h2)
      refine ⟨d, a, ?_, c, ?_⟩
      · intro body; rw [b]; simp
      · intro _ h; rw [h] at h2; cases h2
    · have hr := RetryContext_first_final createTimeout (capacityPoll client req.Plan) _ 0
        (by decide) hp (Nat.zero_le _) rfl
      have hc := Create_probe_error client req diags _ (by simpa using h1) (by simpa using h2)
        (by rw [hr])
      rw [hc, hr]
      refine ⟨HasError_AddError _ _ _, rfl, ?_, rfl, fun _ _ => rfl⟩
      intro body
      simp

/-- C1 at the sample provider: the plan asks for `gpu.8x`, the catalog lists `gpu.1x`. -/
theorem create_unknown_instance_type_witness :
    Diagnostics.HasError (InstanceResource.Create
        (sampleClient 0 (.ok ⟨200, "", some ["i-1"]⟩) [])
        ⟨{ samplePlan with InstanceTypeName := TfString.value "gpu.8x" }, []⟩ []).Diagnostics
      = true
    ∧ (InstanceResource.Create (sampleClient 0 (.ok ⟨200, "", some ["i-1"]⟩) [])
        ⟨{ samplePlan with InstanceTypeName := TfString.value "gpu.8x" }, []⟩ []).calls
      = [Call.instanceTypes] :=
  have h := create_unknown_instance_type (sampleClient 0 (.ok ⟨200, "", some ["i-1"]⟩) [])
    ⟨{ samplePlan with InstanceTypeName := TfString.value "gpu.8x" }, []⟩ []
    ⟨"", some (sampleCatalog [sampleRegion])⟩ (sampleCatalog [sampleRegion]) rfl rfl
    (by decide)
  ⟨h.2.1, h.2.2.2.2.2 rfl rfl⟩

/-- C2: against a catalog that lists the requested instance type, one capacity poll
returns nil exactly when some region of the type's regions-with-capacity list has the
requested name, and otherwise the retryable error `no capacity available in region ...`
after its sleep; against a catalog that does not list the type it returns a
non-retryable error. So a listed type never gives a non-retryable error and an unknown
type never a retryable one. -/
theorem capacity_poll_outcome (client : Client) (data : InstanceResourceModel) (i : Nat)
    (resp : InstanceTypesResponse) (cat : GoMap InstanceTypeAvailability)
    (h : client.InstanceTypesWithResponse i = .ok resp) (hj : resp.JSON200 = some cat) :
    (∀ avail, GoMap.get? cat data.InstanceTypeName.ValueString = some avail →
      (((capacityPoll client data i).1 = none ↔
          ∃ r ∈ avail.RegionsWithCapacityAvailable, r.Name = data.RegionName.ValueString)
        ∧ ((capacityPoll client data i).1 ≠ none →
            capacityPoll client data i
              = (some ⟨"no capacity available in region " ++ data.RegionName.ValueString, true⟩,
                 capacitySleep))
        ∧ (∀ e, (capacityPoll client data i).1 = some e → e.Retryable = true)))
    ∧ (GoMap.get? cat data.InstanceTypeName.ValueString = none →
        ∃ e, (capacityPoll client data i).1 = some e ∧ e.Retryable = false) := by
  constructor
  · intro avail hk
    have hp := capacityPoll_known client data i resp cat avail h hj hk
    by_cases hx : ∃ r ∈ avail.RegionsWithCapacityAvailable, r.Name = data.RegionName.ValueString
    · rw [if_pos hx] at hp
      rw [hp]
      exact ⟨⟨fun _ => hx, fun _ => rfl⟩, fun hn => absurd rfl hn, fun e he => (by cases he)⟩
    · rw [if_neg hx] at hp
      rw [hp]
      refine ⟨⟨fun hn => (by cases hn), fun hy => absurd hy hx⟩, fun _ => rfl, fun e he => ?_⟩
      cases he
      rfl
  · intro hk
    have hp := capacityPoll_unknown client data i resp cat h hj hk
    exact ⟨_, by rw [hp], rfl⟩

/-- C2 at the sample provider: poll 0 finds no capacity, poll 1 finds `us-east-1`. -/
theorem capacity_poll_outcome_witness :
    (capacityPoll (sampleClient 1 (.ok ⟨200, "", some ["i-1"]⟩) []) samplePlan 0).1
      = some ⟨"no capacity available in region us-east-1", true⟩
    ∧ (capacityPoll (sampleClient 1 (.ok ⟨200, "", some ["i-1"]⟩) []) samplePlan 1).1 = none :=
  have h0 := (capacity_poll_outcome (sampleClient 1 (.ok ⟨200, "", some ["i-1"]⟩) [])
    samplePlan 0 ⟨"", some (sampleCatalog [])⟩ (sampleCatalog []) rfl rfl).1
    ⟨sampleType, []⟩ rfl
  have h1 := (capacity_poll_outcome (sampleClient 1 (.ok ⟨200, "", some ["i-1"]⟩) [])
    samplePlan 1 ⟨"", some (sampleCatalog [sampleRegion])⟩ (sampleCatalog [sampleRegion])
    rfl rfl).1 ⟨sampleType, [sampleRegion]⟩ rfl
  ⟨by
    have := h0.2.1 (fun hn => by simpa using h0.1.mp hn)
    rw [this]; rfl,
   h1.1.mpr ⟨sampleRegion, by simp, rfl⟩⟩

theorem Create_probe_ok (client : Client) (req : CreateRequest) (diags : Diagnostics)
    (h1 : Diagnostics.HasError diags = false)
    (h2 : Diagnostics.HasError (Diagnostics.Append diags req.PlanGet) = false)
    (hr : (RetryContext createTimeout (capacityPoll client req.Plan)).err = none) :
    (InstanceResource.Create client req diags).calls
      = List.replicate (RetryContext createTimeout (capacityPoll client req.Plan)).attempts
          Call.instanceTypes ++ [Call.launchInstance (launchBody req.Plan)]
    ∧ (InstanceResource.Create client req diags).elapsed
      = (RetryContext createTimeout (capacityPoll client req.Plan)).elapsed := by
  unfold InstanceResource.Create
  simp only [h1, h2, hr, Bool.false_eq_true, if_false]
  split
  · exact ⟨rfl, rfl⟩
  · split
    · exact ⟨rfl, rfl⟩
    · split <;> exact ⟨rfl, rfl⟩

/-- C3: for every `k`, if the catalog lists the requested type without capacity in the
requested region on polls `0 .. k-1` and with capacity on poll `k`, and poll `k` starts
before the 20 minute deadline, then the probing of `Create` succeeds at call `k + 1` of
the poll (every earlier call asks for a retry), and the requests sent by `Create` are
exactly `k + 1` catalog requests followed by one launch request. -/
theorem create_succeeds_after_k_polls (k : Nat) (client : Client) (req : CreateRequest)
    (diags : Diagnostics)
    (h1 : Diagnostics.HasError diags = false)
    (h2 : Diagnostics.HasError (Diagnostics.Append diags req.PlanGet) = false)
    (hno : ∀ j, j < k → ∃ resp cat avail,
      client.InstanceTypesWithResponse j = .ok resp ∧ resp.JSON200 = some cat
      ∧ GoMap.get? cat req.Plan.InstanceTypeName.ValueString = some avail
      ∧ ∀ r ∈ avail.RegionsWithCapacityAvailable, r.Name ≠ req.Plan.RegionName.ValueString)
    (hyes : ∃ resp cat avail,
      client.InstanceTypesWithResponse k = .ok resp ∧ resp.JSON200 = some cat
      ∧ GoMap.get? cat req.Plan.InstanceTypeName.ValueString = some avail
      ∧ ∃ r ∈ avail.RegionsWithCapacityAvailable, r.Name = req.Plan.RegionName.ValueString)
    (ht : pollStart k < createTimeout) :
    RetryContext createTimeout (capacityPoll client req.Plan) = ⟨none, k + 1, pollStart k⟩
    ∧ (∀ j, j < k → ∃ e, (capacityPoll client req.Plan j).1 = some e ∧ e.Retryable = true)
    ∧ (capacityPoll client req.Plan k).1 = none
    ∧ (InstanceResource.Create client req diags).calls
        = List.replicate (k + 1) Call.instanceTypes
          ++ [Call.launchInstance (launchBody req.Plan)] := by
  have hj : ∀ j, j < k → capacityPoll client req.Plan j
      = (some (RetryableError ("no capacity available in region "
          ++ req.Plan.RegionName.ValueString)), capacitySleep) := by
    intro j hjk
    obtain ⟨resp, cat, avail, ha, hb, hc, hd⟩ := hno j hjk
    rw [capacityPoll_known client req.Plan j resp cat avail ha hb hc, if_neg]
    rintro ⟨r, hr, hn⟩
    exact hd r hr hn
  have hk : capacityPoll client req.Plan k = (none, 0) := by
    obtain ⟨resp, cat, avail, ha, hb, hc, hd⟩ := hyes
    rw [capacityPoll_known client req.Plan k resp cat avail ha hb hc, if_pos hd]
  have hr := RetryContext_succeeds_after createTimeout (capacityPoll client req.Plan) _
    capacitySleep k hj hk ht (by decide)
  refine ⟨hr, fun j hjk => ⟨_, by rw [hj j hjk], rfl⟩, by rw [hk], ?_⟩
  have hc := (Create_probe_ok client req diags h1 h2 (by rw [hr])).1
  rw [hc, hr]

/-- C3 at the scenario of the specification: no capacity on three polls, capacity on the
fourth; four catalog requests, then one launch request. -/
theorem create_succeeds_after_k_polls_witness :
    (InstanceResource.Create (sampleClient 3 (.ok ⟨200, "", some ["i-1"]⟩) [])
        ⟨samplePlan, []⟩ []).calls
      = [Call.instanceTypes, Call.instanceTypes, Call.instanceTypes, Call.instanceTypes,
         Call.launchInstance (launchBody samplePlan)]
    ∧ RetryContext createTimeout
        (capacityPoll (sampleClient 3 (.ok ⟨200, "", some ["i-1"]⟩) []) samplePlan)
      = ⟨none, 4, 9500⟩ :=
  have h := create_succeeds_after_k_polls 3 (sampleClient 3 (.ok ⟨200, "", some ["i-1"]⟩) [])
    ⟨samplePlan, []⟩ [] rfl rfl
    (fun j hj => ⟨⟨"", some (sampleCatalog [])⟩, sampleCatalog [], ⟨sampleType, []⟩,
      by simp [sampleClient, hj], rfl, rfl, by simp⟩)
    ⟨⟨"", some (sampleCatalog [sampleRegion])⟩, sampleCatalog [sampleRegion],
      ⟨sampleType, [sampleRegion]⟩, rfl, rfl, rfl, sampleRegion, by simp, rfl⟩
    (by decide)
  ⟨h.2.2.2, h.1⟩

theorem retryStart_le_succ (d : Nat) (k now wait : Nat) :
    retryStart d now wait k ≤ retryStart d now wait (k + 1) := by
  induction k generalizing now wait with
  | zero => simp only [retryStart]; omega
  | succ k ih =>
    have := ih (now + wait + d) (nextWait wait)
    simpa only [retryStart] using this

theorem retryStart_steady (d k now : Nat) :
    retryStart d now maxWait k = now + maxWait + k * (d + maxWait) := by
  induction k generalizing now with
  | zero => simp [retryStart]
  | succ k ih =>
    have hw : nextWait maxWait = maxWait := by decide
    simp only [retryStart, hw, ih]
    rw [Nat.succ_mul]
    omega

theorem pollStart_steady (m : Nat) : pollStart (m + 6) = 37500 + 12000 * m := by
  have h : pollStart (m + 6) = retryStart capacitySleep 27500 maxWait m := rfl
  rw [h, retryStart_steady]
  simp only [capacitySleep, maxWait]
  omega

theorem pollStart_mono : Monotone pollStart :=
  monotone_nat_of_le_succ (fun k => retryStart_le_succ capacitySleep k 0 0)

/-- C4: when the requested type is in the catalog at every poll and the requested region
never is in its capacity list, `Create` polls again and again and fails only at the
deadline of 20 minutes: every poll it makes starts before the deadline, the poll after
the last would start at or after it (103 polls are made), `Create` returns no earlier
than the deadline, with an error, no launch request and no state. -/
theorem create_fails_only_at_deadline (client : Client) (req : CreateRequest)
    (diags : Diagnostics)
    (h1 : Diagnostics.HasError diags = false)
    (h2 : Diagnostics.HasError (Diagnostics.Append diags req.PlanGet) = false)
    (hno : ∀ j, ∃ resp cat avail,
      client.InstanceTypesWithResponse j = .ok resp ∧ resp.JSON200 = some cat
      ∧ GoMap.get? cat req.Plan.InstanceTypeName.ValueString = some avail
      ∧ ∀ r ∈ avail.RegionsWithCapacityAvailable, r.Name ≠ req.Plan.RegionName.ValueString) :
    createTimeout = 20 * 60 * 1000
    ∧ createTimeout ≤ (InstanceResource.Create client req diags).elapsed
    ∧ (∃ n, (InstanceResource.Create client req diags).calls
          = List.replicate n Call.instanceTypes
        ∧ n = 103
        ∧ (∀ j, j < n → pollStart j < createTimeout)
        ∧ createTimeout ≤ pollStart n)
    ∧ Diagnostics.HasError (InstanceResource.Create client req diags).Diagnostics = true
    ∧ (InstanceResource.Create client req diags).State = none := by
  have hj : ∀ j, capacityPoll client req.Plan j
      = (some (RetryableError ("no capacity available in region "
          ++ req.Plan.RegionName.ValueString)), capacitySleep) := by
    intro j
    obtain ⟨resp, cat, avail, ha, hb, hc, hd⟩ := hno j
    rw [capacityPoll_known client req.Plan j resp cat avail ha hb hc, if_neg]
    rintro ⟨r, hr, hn⟩
    exact hd r hr hn
  obtain ⟨n, e, hr, hn, he, hlt, hge⟩ := RetryContext_never createTimeout
    (capacityPoll client req.Plan) _ capacitySleep (by decide) (by decide) hj
  have hc := Create_probe_error client req diags _ h1 h2 (by rw [hr])
  rw [hc, hr]
  refine ⟨rfl, he, ⟨n, rfl, ?_, hlt, hge⟩, HasError_AddError _ _ _, rfl⟩
  have a : pollStart 102 < createTimeout := by
    rw [pollStart_steady 96]; decide
  have b : createTimeout ≤ pollStart 103 := by
    rw [pollStart_steady 97]; decide
  rcases Nat.lt_trichotomy n 103 with h | h | h
  · have := pollStart_mono (show n ≤ 102 by omega)
    have hge2 : createTimeout ≤ pollStart n := hge
    omega
  · exact h
  · have : pollStart 103 < createTimeout := hlt 103 h
    omega

/-- C4 at the sample provider, which has capacity in `us-east-1` only, for a plan that
asks for `us-west-2`. -/
theorem create_fails_only_at_deadline_witness :
    1200000 ≤ (InstanceResource.Create (sampleClient 0 (.ok ⟨200, "", some ["i-1"]⟩) [])
        ⟨{ samplePlan with RegionName := TfString.value "us-west-2" }, []⟩ []).elapsed
    ∧ (InstanceResource.Create (sampleClient 0 (.ok ⟨200, "", some ["i-1"]⟩) [])
        ⟨{ samplePlan with RegionName := TfString.value "us-west-2" }, []⟩ []).State = none :=
  have h := create_fails_only_at_deadline (sampleClient 0 (.ok ⟨200, "", some ["i-1"]⟩) [])
    ⟨{ samplePlan with RegionName := TfString.value "us-west-2" }, []⟩ [] rfl rfl
    (fun _ => ⟨⟨"", some (sampleCatalog [sampleRegion])⟩, sampleCatalog [sampleRegion],
      ⟨sampleType, [sampleRegion]⟩, rfl, rfl, rfl, by decide⟩)
  ⟨h.2.1, h.2.2.2.2⟩

theorem launch_not_mem_replicate (n : Nat) (body : LaunchInstanceJSONRequestBody) :
    Call.launchInstance body ∉ List.replicate n Call.instanceTypes := by
  intro h
  have := List.eq_of_mem_replicate h
  cases this

/-- C5: `Create` sends a launch request only after the capacity probing has returned
success. If the probing ends in an error (whatever its cause: unknown type, failed
catalog request, catalog response without a body, deadline), `Create` reports an error,
sends no launch request and writes no state. Conversely, when a launch request was sent,
the probing returned nil, its last poll returned nil, and the launch request is the last
request, after all catalog requests. -/
theorem create_launch_only_after_probe (client : Client) (req : CreateRequest)
    (diags : Diagnostics) :
    (∀ err, (RetryContext createTimeout (capacityPoll client req.Plan)).err = some err →
      Diagnostics.HasError (InstanceResource.Create client req diags).Diagnostics = true
      ∧ (∀ body, Call.launchInstance body ∉ (InstanceResource.Create client req diags).calls)
      ∧ (InstanceResource.Create client req diags).State = none)
    ∧ ((∃ body, Call.launchInstance body ∈ (InstanceResource.Create client req diags).calls) →
      (RetryContext createTimeout (capacityPoll client req.Plan)).err = none
      ∧ ∃ n, 0 < n ∧ (capacityPoll client req.Plan (n - 1)).1 = none
        ∧ (InstanceResource.Create client req diags).calls
          = List.replicate n Call.instanceTypes
            ++ [Call.launchInstance (launchBody req.Plan)]) := by
  by_cases h1 : Diagnostics.HasError diags = true
  · obtain ⟨a, b, c, d⟩ := Create_prior_error client req diags (Or.inl h1)
    refine ⟨fun _ _ => ⟨d, fun body => by rw [b]; simp, a⟩, ?_⟩
    rintro ⟨body, hb⟩
    rw [b] at hb
    cases hb
  · by_cases h2 : Diagnostics.HasError (Diagnostics.Append diags req.PlanGet) = true
    · obtain ⟨a, b, c, d⟩ := Create_prior_error client req diags (Or.inr h2)
      refine ⟨fun _ _ => ⟨d, fun body => by rw [b]; simp, a⟩, ?_⟩
      rintro ⟨body, hb⟩
      rw [b] at hb
      cases hb
    · have h1f : Diagnostics.HasError diags = false := by simpa using h1
      have h2f : Diagnostics.HasError (Diagnostics.Append diags req.PlanGet) = false := by
        simpa using h2
      constructor
      · intro err hr
        rw [Create_probe_error client req diags err h1f h2f hr]
        exact ⟨HasError_AddError _ _ _, fun body => launch_not_mem_replicate _ body, rfl⟩
      · rintro ⟨body, hb⟩
        cases hr : (RetryContext createTimeout (capacityPoll client req.Plan)).err with
        | some err =>
          rw [Create_probe_error client req diags err h1f h2f hr] at hb
          exact absurd hb (launch_not_mem_replicate _ body)
        | none =>
          refine ⟨rfl, ?_⟩
          rcases RetryContext_cases createTimeout (capacityPoll client req.Plan) with
            c1 | ⟨e, _, _, c2, _⟩ | ⟨c3, _⟩
          · exact ⟨_, c1.2.1, c1.2.2, (Create_probe_ok client req diags h1f h2f hr).1⟩
          · rw [hr] at c2; cases c2
          · rw [hr] at c3; cases c3

/-- C5 at the sample provider with an unknown instance type: the probing ends in an
error and the only request is the catalog request. -/
theorem create_launch_only_after_probe_witness :
    ∀ body, Call.launchInstance body ∉ (InstanceResource.Create
        (sampleClient 0 (.ok ⟨200, "", some ["i-1"]⟩) [])
        ⟨{ samplePlan with InstanceTypeName := TfString.value "gpu.8x" }, []⟩ []).calls :=
  ((create_launch_only_after_probe (sampleClient 0 (.ok ⟨200, "", some ["i-1"]⟩) [])
    ⟨{ samplePlan with InstanceTypeName := TfString.value "gpu.8x" }, []⟩ []).1
    "instance type gpu.8x not found in available instance types"
    (by
      have h := RetryContext_first_final createTimeout
        (capacityPoll (sampleClient 0 (.ok ⟨200, "", some ["i-1"]⟩) [])
          { samplePlan with InstanceTypeName := TfString.value "gpu.8x" })
        (NonRetryableError "instance type gpu.8x not found in available instance types") 0
        (by decide) rfl (Nat.zero_le _) rfl
      exact congrArg RetryOutcome.err h)).2.1

theorem foldl_append_singleton {α β : Type} (g : α → β) (xs : List α) (acc : List β) :
    xs.foldl (fun ys x => ys ++ [g x]) acc = acc ++ xs.map g := by
  induction xs generalizing acc with
  | nil => simp
  | cons x xs ih => simp [ih]

theorem makeStringListFromTf_eq (tfStrings : Slice TfString) :
    makeStringListFromTf tfStrings = some (tfStrings.elems.map TfString.ValueString) := by
  simp [makeStringListFromTf, foldl_append_singleton]

theorem makeTfStringList_eq (rawStrings : Slice String) :
    makeTfStringList rawStrings = some (rawStrings.elems.map StringValue) := by
  simp [makeTfStringList, foldl_append_singleton]

theorem filter_isLaunch_replicate (n : Nat) :
    (List.replicate n Call.instanceTypes).filter Call.isLaunch = [] := by
  induction n with
  | zero => rfl
  | succ n ih => simp [List.replicate_succ, Call.isLaunch, ih]

/-! ## Create: the launch -/

/-- C6: when the capacity probing of `Create` has succeeded, `Create` sends exactly one
launch request, and that request has quantity 1, the instance type name and region name
of the plan, the name of the plan (absent when the plan's name is null), the SSH key
names of the plan in order and the filesystem names of the plan in order (present and
empty, not absent, when the plan has none). -/
theorem create_launch_request (client : Client) (req : CreateRequest) (diags : Diagnostics)
    (h1 : Diagnostics.HasError diags = false)
    (h2 : Diagnostics.HasError (Diagnostics.Append diags req.PlanGet) = false)
    (hr : (RetryContext createTimeout (capacityPoll client req.Plan)).err = none) :
    ∃ body, (InstanceResource.Create client req diags).calls.filter Call.isLaunch
        = [Call.launchInstance body]
      ∧ body.Quantity = some 1
      ∧ body.InstanceTypeName = req.Plan.InstanceTypeName.ValueString
      ∧ body.RegionName = req.Plan.RegionName.ValueString
      ∧ body.Name = req.Plan.Name.ValueStringPointer
      ∧ (req.Plan.Name = TfString.null → body.Name = none)
      ∧ (∀ s, req.Plan.Name = TfString.value s → body.Name = some s)
      ∧ body.SshKeyNames = some (req.Plan.SshKeyNames.elems.map TfString.ValueString)
      ∧ (∀ keys, req.Plan.SshKeyNames = some (keys.map TfString.value) →
          body.SshKeyNames = some keys)
      ∧ body.FileSystemNames
          = some (some (req.Plan.FileSystemNames.elems.map TfString.ValueString))
      ∧ (∀ names, req.Plan.FileSystemNames = some (names.map TfString.value) →
          body.FileSystemNames = some (some names))
      ∧ (req.Plan.FileSystemNames.elems = [] → body.FileSystemNames = some (some [])) := by
  have hmap : ∀ xs : List String, (xs.map TfString.value).map TfString.ValueString = xs := by
    intro xs
    induction xs with
    | nil => rfl
    | cons x xs ih => simp only [List.map_cons, ih, TfString.ValueString]
  have hfs : (launchBody req.Plan).FileSystemNames
      = some (some (req.Plan.FileSystemNames.elems.map TfString.ValueString)) := by
    unfold launchBody
    cases hf : req.Plan.FileSystemNames with
    | none => simp [Slice.elems]
    | some xs => simp [makeStringListFromTf_eq, Slice.elems]
  have hssh : (launchBody req.Plan).SshKeyNames
      = some (req.Plan.SshKeyNames.elems.map TfString.ValueString) := by
    simp [launchBody, makeStringListFromTf_eq]
  refine ⟨launchBody req.Plan, ?_, rfl, rfl, rfl, rfl, ?_, ?_, hssh, ?_, hfs, ?_, ?_⟩
  · rw [(Create_probe_ok client req diags h1 h2 hr).1, List.filter_append,
      filter_isLaunch_replicate]
    simp [Call.isLaunch]
  · intro hn
    simp [launchBody, hn, TfString.ValueStringPointer]
  · intro s hs
    simp [launchBody, hs, TfString.ValueStringPointer]
  · intro keys hk
    rw [hssh, hk]
    simp [Slice.elems, hmap]
  · intro names hn
    rw [hfs, hn]
    simp [Slice.elems, hmap]
  · intro he
    rw [hfs, he]
    rfl

theorem sample_probe (k : Nat) (launch : Except String LaunchInstanceResponse)
    (instances : List Instance) (ht : pollStart k < createTimeout) :
    RetryContext createTimeout (capacityPoll (sampleClient k launch instances) samplePlan)
      = ⟨none, k + 1, pollStart k⟩ := by
  apply RetryContext_succeeds_after createTimeout _
    "no capacity available in region us-east-1" capacitySleep k _ _ ht (by decide)
  · intro j hj
    simp [capacityPoll, sampleClient, hj, sampleCatalog, samplePlan, GoMap.get?,
      TfString.ValueString, GoMap.empty, RetryableError]
  · simp [capacityPoll, sampleClient, sampleCatalog, samplePlan, GoMap.get?,
      TfString.ValueString, GoMap.empty, GoMap.set, sampleRegion]

/-- C6 at the sample plan: one launch request, for one instance of `gpu.1x` in
`us-east-1` with the key `k1`, no name and an empty filesystem list. -/
theorem create_launch_request_witness :
    ∃ body, (InstanceResource.Create (sampleClient 0 (.ok ⟨200, "", some ["i-1"]⟩) [])
          ⟨samplePlan, []⟩ []).calls.filter Call.isLaunch = [Call.launchInstance body]
      ∧ body.Quantity = some 1 ∧ body.InstanceTypeName = "gpu.1x"
      ∧ body.RegionName = "us-east-1" ∧ body.Name = none
      ∧ body.SshKeyNames = some ["k1"] ∧ body.FileSystemNames = some (some []) :=
  let ⟨body, h⟩ := create_launch_request (sampleClient 0 (.ok ⟨200, "", some ["i-1"]⟩) [])
    ⟨samplePlan, []⟩ [] rfl rfl
    (congrArg RetryOutcome.err (sample_probe 0 _ _ (by decide)))
  ⟨body, h.1, h.2.1, h.2.2.1, h.2.2.2.1, h.2.2.2.2.2.1 rfl,
    h.2.2.2.2.2.2.2.2.1 ["k1"] rfl, h.2.2.2.2.2.2.2.2.2.2.2 rfl⟩

/-- C7: when the launch request ends in a client error, in a response whose status code
is not 200, or in a response without a parsed success body, `Create` reports an error
and writes no state; it sends at most one launch request (exactly one when the probing
had succeeded), so the launch is not retried. -/
theorem create_launch_failure (client : Client) (req : CreateRequest) (diags : Diagnostics)
    (hl : (∃ err, client.LaunchInstanceWithResponse (launchBody req.Plan) = .error err)
      ∨ ∃ response, client.LaunchInstanceWithResponse (launchBody req.Plan) = .ok response
          ∧ (response.StatusCode ≠ 200 ∨ response.JSON200 = none)) :
    Diagnostics.HasError (InstanceResource.Create client req diags).Diagnostics = true
    ∧ (InstanceResource.Create client req diags).State = none
    ∧ ((InstanceResource.Create client req diags).calls.filter Call.isLaunch).length ≤ 1
    ∧ (Diagnostics.HasError diags = false →
        Diagnostics.HasError (Diagnostics.Append diags req.PlanGet) = false →
        (RetryContext createTimeout (capacityPoll client req.Plan)).err = none →
        (InstanceResource.Create client req diags).calls.filter Call.isLaunch
          = [Call.launchInstance (launchBody req.Plan)]) := by
  by_cases h1 : Diagnostics.HasError diags = true
  · obtain ⟨a, b, c, d⟩ := Create_prior_error client req diags (Or.inl h1)
    refine ⟨d, a, by rw [b]; simp, fun h => ?_⟩
    rw [h] at h1; cases h1
  · by_cases h2 : Diagnostics.HasError (Diagnostics.Append diags req.PlanGet) = true
    · obtain ⟨a, b, c, d⟩ := Create_prior_error client req diags (Or.inr h2)
      refine ⟨d, a, by rw [b]; simp, fun _ h => ?_⟩
      rw [h] at h2; cases h2
    · have h1f : Diagnostics.HasError diags = false := by simpa using h1
      have h2f : Diagnostics.HasError (Diagnostics.Append diags req.PlanGet) = false := by
        simpa using h2
      cases hr : (RetryContext createTimeout (capacityPoll client req.Plan)).err with
      | some err =>
        rw [Create_probe_error client req diags err h1f h2f hr]
        refine ⟨HasError_AddError _ _ _, rfl, ?_, fun _ _ h => by cases h⟩
        simp [filter_isLaunch_replicate]
      | none =>
        have hc : (InstanceResource.Create client req diags).calls.filter Call.isLaunch
            = [Call.launchInstance (launchBody req.Plan)] := by
          rw [(Create_probe_ok client req diags h1f h2f hr).1, List.filter_append,
            filter_isLaunch_replicate]
          simp [Call.isLaunch]
        refine ⟨?_, ?_, by rw [hc]; simp, fun _ _ _ => hc⟩
        · unfold InstanceResource.Create
          simp only [h1f, h2f, hr, Bool.false_eq_true, if_false]
          rcases hl with ⟨err, he⟩ | ⟨response, he, hs | hj⟩
          · simp only [he]
            exact HasError_AddError _ _ _
          · simp only [he, hs, ne_eq, not_false_eq_true, if_true]
            exact HasError_AddError _ _ _
          · simp only [he, hj]
            split <;> exact HasError_AddError _ _ _
        · unfold InstanceResource.Create
          simp only [h1f, h2f, hr, Bool.false_eq_true, if_false]
          rcases hl with ⟨err, he⟩ | ⟨response, he, hs | hj⟩
          · simp only [he]
          · simp only [he, hs, ne_eq, not_false_eq_true, if_true]
          · simp only [he, hj]
            split <;> rfl

/-- C7 at the sample provider answering the launch with status 500. -/
theorem create_launch_failure_witness :
    Diagnostics.HasError (InstanceResource.Create
        (sampleClient 0 (.ok ⟨500, "internal error", none⟩) []) ⟨samplePlan, []⟩ []).Diagnostics
      = true
    ∧ (InstanceResource.Create (sampleClient 0 (.ok ⟨500, "internal error", none⟩) [])
        ⟨samplePlan, []⟩ []).State = none
    ∧ (InstanceResource.Create (sampleClient 0 (.ok ⟨500, "internal error", none⟩) [])
        ⟨samplePlan, []⟩ []).calls.filter Call.isLaunch
      = [Call.launchInstance (launchBody samplePlan)] :=
  have h := create_launch_failure (sampleClient 0 (.ok ⟨500, "internal error", none⟩) [])
    ⟨samplePlan, []⟩ [] (Or.inr ⟨⟨500, "internal error", none⟩, rfl, Or.inl (by decide)⟩)
  ⟨h.1, h.2.1, h.2.2.2 rfl rfl (congrArg RetryOutcome.err (sample_probe 0 _ _ (by decide)))⟩

theorem Create_launch_ok (client : Client) (req : CreateRequest) (diags : Diagnostics)
    (body : String) (ids : List String)
    (h1 : Diagnostics.HasError diags = false)
    (h2 : Diagnostics.HasError (Diagnostics.Append diags req.PlanGet) = false)
    (hr : (RetryContext createTimeout (capacityPoll client req.Plan)).err = none)
    (hl : client.LaunchInstanceWithResponse (launchBody req.Plan) = .ok ⟨200, body, some ids⟩) :
    (InstanceResource.Create client req diags).Diagnostics = Diagnostics.Append diags req.PlanGet
    ∧ (∀ id, ids = [id] →
        (InstanceResource.Create client req diags).State
          = some { req.Plan with ID := StringValue id })
    ∧ (ids.length ≠ 1 → (InstanceResource.Create client req diags).State = some req.Plan) := by
  unfold InstanceResource.Create
  simp only [h1, h2, hr, hl, Bool.false_eq_true, if_false, ne_eq, not_true_eq_false]
  refine ⟨trivial, ?_, ?_⟩
  · intro id hid
    subst hid
    rfl
  · intro hlen
    match ids, hlen with
    | [], _ => rfl
    | _ :: _ :: _, _ => rfl

/-- C8, amended: when the launch succeeds (status 200 with a success body), `Create` does
not fail and writes the state; when exactly one instance id is returned the id in the
state is that id; when more than one is returned no id is assigned, the state is the
plan with the id of the plan (the returned ids are only logged). -/
theorem create_tracks_single_id (client : Client) (req : CreateRequest) (diags : Diagnostics)
    (body : String) (ids : List String)
    (h1 : Diagnostics.HasError diags = false)
    (h2 : Diagnostics.HasError (Diagnostics.Append diags req.PlanGet) = false)
    (hr : (RetryContext createTimeout (capacityPoll client req.Plan)).err = none)
    (hl : client.LaunchInstanceWithResponse (launchBody req.Plan) = .ok ⟨200, body, some ids⟩) :
    Diagnostics.HasError (InstanceResource.Create client req diags).Diagnostics = false
    ∧ (∀ id, ids = [id] →
        (InstanceResource.Create client req diags).State
          = some { req.Plan with ID := StringValue id })
    ∧ (1 < ids.length → (InstanceResource.Create client req diags).State = some req.Plan) := by
  obtain ⟨hd, hs, hm⟩ := Create_launch_ok client req diags body ids h1 h2 hr hl
  exact ⟨by rw [hd]; exact h2, hs, fun hlen => hm (by omega)⟩

/-- C8, amended, at the sample provider: one id returned, that id is stored. -/
theorem create_tracks_single_id_witness :
    (InstanceResource.Create (sampleClient 0 (.ok ⟨200, "", some ["i-1"]⟩) [])
        ⟨samplePlan, []⟩ []).State
      = some { samplePlan with ID := StringValue "i-1" } :=
  (create_tracks_single_id (sampleClient 0 (.ok ⟨200, "", some ["i-1"]⟩) [])
    ⟨samplePlan, []⟩ [] "" ["i-1"] rfl rfl
    (congrArg RetryOutcome.err (sample_probe 0 _ _ (by decide))) rfl).2.1 "i-1" rfl

/-- C8 as stated fails: a successful launch that returns the two ids `i-1`, `i-2` makes
`Create` succeed and write a state whose id is the unknown id of the plan, not the first
returned id `i-1`. -/
theorem create_two_ids_not_first :
    Diagnostics.HasError (InstanceResource.Create
        (sampleClient 0 (.ok ⟨200, "", some ["i-1", "i-2"]⟩) []) ⟨samplePlan, []⟩ []).Diagnostics
      = false
    ∧ (InstanceResource.Create (sampleClient 0 (.ok ⟨200, "", some ["i-1", "i-2"]⟩) [])
        ⟨samplePlan, []⟩ []).State.map InstanceResourceModel.ID = some TfString.unknown
    ∧ ¬ ((InstanceResource.Create (sampleClient 0 (.ok ⟨200, "", some ["i-1", "i-2"]⟩) [])
        ⟨samplePlan, []⟩ []).State.map InstanceResourceModel.ID = some (StringValue "i-1")) := by
  obtain ⟨hd, _, hm⟩ := Create_launch_ok
    (sampleClient 0 (.ok ⟨200, "", some ["i-1", "i-2"]⟩) []) ⟨samplePlan, []⟩ [] ""
    ["i-1", "i-2"] rfl rfl (congrArg RetryOutcome.err (sample_probe 0 _ _ (by decide))) rfl
  rw [hd, hm (by decide)]
  refine ⟨rfl, rfl, ?_⟩
  simp [samplePlan, StringValue]

/-! ## Read -/

theorem instancesById_get? (l : List Instance) (k : String) :
    GoMap.get? (instancesById l) k
      = (l.reverse.find? (fun x => k == x.Id)).map instanceModel := by
  unfold instancesById
  rw [lookup_foldl_set (fun x : Instance => x.Id) instanceModel k l GoMap.empty]
  cases List.find? (fun x => k == x.Id) l.reverse <;> rfl

theorem instancesById_mem (l : List Instance) (k : String) (h : ∃ e ∈ l, e.Id = k) :
    ∃ e ∈ l, e.Id = k ∧ GoMap.get? (instancesById l) k = some (instanceModel e) := by
  rw [instancesById_get?]
  cases hf : List.find? (fun x => k == x.Id) l.reverse with
  | none =>
    obtain ⟨e, he, hk⟩ := h
    have := List.find?_eq_none.mp hf e (by simpa using he)
    simp [hk] at this
  | some y =>
    have hy : y ∈ l := by simpa using List.mem_of_find?_eq_some hf
    have hp : k = y.Id := by simpa using List.find?_some hf
    exact ⟨y, hy, hp.symm, rfl⟩

theorem instancesById_last (pre post : List Instance) (e : Instance)
    (hpost : ∀ o ∈ post, o.Id ≠ e.Id) :
    GoMap.get? (instancesById (pre ++ e :: post)) e.Id = some (instanceModel e) := by
  rw [instancesById_get?]
  have hnone : List.find? (fun x => e.Id == x.Id) post.reverse = none := by
    rw [List.find?_eq_none]
    intro x hx
    have := hpost x (by simpa using hx)
    simpa using fun h : e.Id = x.Id => this h.symm
  simp [List.find?_append, hnone]

theorem instancesById_unique (l others : List Instance) (e : Instance)
    (hperm : l.Perm (e :: others)) (hothers : ∀ o ∈ others, o.Id ≠ e.Id) :
    GoMap.get? (instancesById l) e.Id = some (instanceModel e) := by
  obtain ⟨y, hy, hp, hg⟩ := instancesById_mem l e.Id
    ⟨e, hperm.symm.subset (List.mem_cons_self _ _), rfl⟩
  rcases List.mem_cons.mp (hperm.subset hy) with h | h
  · rw [hg, h]
  · exact absurd hp (hothers y h)

theorem Read_found [GoPrintable] (client : Client) (req : ReadRequest) (diags : Diagnostics)
    (body : String) (l : List Instance) (inst : InstanceDataSourceModel)
    (h1 : Diagnostics.HasError (Diagnostics.Append diags req.StateGet) = false)
    (hl : client.ListInstancesWithResponse = .ok ⟨body, some l⟩)
    (hg : GoMap.get? (instancesById l) req.State.ID.ValueString = some inst) :
    InstanceResource.Read client req diags
      = ⟨Diagnostics.Append diags req.StateGet,
         some { ID := req.State.ID
                Name := inst.Name
                RegionName := inst.Region.Name
                FileSystemNames := inst.FileSystemNames
                InstanceTypeName := inst.InstanceType.Name
                SshKeyNames := inst.SshKeyNames }⟩ := by
  unfold InstanceResource.Read
  simp only [h1, hl, hg, Bool.false_eq_true, if_false]

theorem Read_found_entry [GoPrintable] (client : Client) (req : ReadRequest) (diags : Diagnostics)
    (body : String) (l : List Instance) (e : Instance)
    (h1 : Diagnostics.HasError (Diagnostics.Append diags req.StateGet) = false)
    (hl : client.ListInstancesWithResponse = .ok ⟨body, some l⟩)
    (hg : GoMap.get? (instancesById l) req.State.ID.ValueString = some (instanceModel e)) :
    InstanceResource.Read client req diags
      = ⟨Diagnostics.Append diags req.StateGet,
         some { ID := req.State.ID
                Name := StringPointerValue e.Name
                RegionName := StringValue e.Region.Name
                InstanceTypeName := StringValue e.InstanceType.Name
                SshKeyNames := some (e.SshKeyNames.elems.map StringValue)
                FileSystemNames := some (e.FileSystemNames.elems.map StringValue) }⟩ := by
  rw [Read_found client req diags body l _ h1 hl hg]
  simp [instanceModel, makeTfStringList_eq]

/-- C10: when the provider's list contains an entry whose id is the tracked id, `Read`
reports no error and writes a state whose name, region, instance type, SSH key names and
filesystem names are exactly those of such an entry `e` of the list, and whose id is the
tracked id of the prior state; the written state is the same for every prior state with
that id (a full replace). The entry `e` is the one that the id map of `Read` holds for
the id: every entry with the tracked id that no later entry repeats (so the entry with
that id, when ids are not repeated) is the entry used. -/
theorem read_overwrites_from_entry [GoPrintable] (client : Client) (req : ReadRequest) (diags : Diagnostics)
    (body : String) (l : List Instance)
    (h1 : Diagnostics.HasError (Diagnostics.Append diags req.StateGet) = false)
    (hl : client.ListInstancesWithResponse = .ok ⟨body, some l⟩)
    (hmem : ∃ e ∈ l, e.Id = req.State.ID.ValueString) :
    (∃ e ∈ l, e.Id = req.State.ID.ValueString
      ∧ (InstanceResource.Read client req diags).State
        = some { ID := req.State.ID
                 Name := StringPointerValue e.Name
                 RegionName := StringValue e.Region.Name
                 InstanceTypeName := StringValue e.InstanceType.Name
                 SshKeyNames := some (e.SshKeyNames.elems.map StringValue)
                 FileSystemNames := some (e.FileSystemNames.elems.map StringValue) })
    ∧ Diagnostics.HasError (InstanceResource.Read client req diags).Diagnostics = false
    ∧ (∀ prior : InstanceResourceModel, prior.ID = req.State.ID →
        (InstanceResource.Read client ⟨prior, req.StateGet⟩ diags).State
          = (InstanceResource.Read client req diags).State)
    ∧ (∀ pre post e, l = pre ++ e :: post → e.Id = req.State.ID.ValueString →
        (∀ o ∈ post, o.Id ≠ e.Id) →
        (InstanceResource.Read client req diags).State
          = some { ID := req.State.ID
                   Name := StringPointerValue e.Name
                   RegionName := StringValue e.Region.Name
                   InstanceTypeName := StringValue e.InstanceType.Name
                   SshKeyNames := some (e.SshKeyNames.elems.map StringValue)
                   FileSystemNames := some (e.FileSystemNames.elems.map StringValue) }) := by
  obtain ⟨e, he, hid, hg⟩ := instancesById_mem l _ hmem
  have hr := Read_found_entry client req diags body l e h1 hl hg
  refine ⟨⟨e, he, hid, by rw [hr]⟩, by rw [hr]; exact h1, ?_, ?_⟩
  · intro prior hp
    have hr2 := Read_found_entry client ⟨prior, req.StateGet⟩ diags body l e h1 hl
      (by rw [hp]; exact hg)
    rw [hr, hr2]
    simp [hp]
  · intro pre post e2 hsplit hid2 hpost
    have hg2 := instancesById_last pre post e2 hpost
    rw [← hsplit, hid2] at hg2
    rw [Read_found_entry client req diags body l e2 h1 hl hg2]

/-- C10 at a list of two instances, read for the tracked id `i-2` from a prior state
that holds other values. -/
theorem read_overwrites_from_entry_witness :
    (InstanceResource.Read
        (sampleClient 0 (.ok ⟨200, "", some ["i-2"]⟩)
          [sampleInstance "i-1" "one", sampleInstance "i-2" "two"])
        ⟨{ samplePlan with ID := TfString.value "i-2", Name := TfString.value "old" }, []⟩
        []).State
      = some { ID := TfString.value "i-2"
               Name := TfString.value "two"
               RegionName := TfString.value "us-east-1"
               InstanceTypeName := TfString.value "gpu.1x"
               SshKeyNames := some [TfString.value "k1"]
               FileSystemNames := some [] } :=
  (read_overwrites_from_entry
    (sampleClient 0 (.ok ⟨200, "", some ["i-2"]⟩)
      [sampleInstance "i-1" "one", sampleInstance "i-2" "two"])
    ⟨{ samplePlan with ID := TfString.value "i-2", Name := TfString.value "old" }, []⟩
    [] "" [sampleInstance "i-1" "one", sampleInstance "i-2" "two"] rfl rfl
    ⟨sampleInstance "i-2" "two", by simp, rfl⟩).2.2.2
    [sampleInstance "i-1" "one"] [] (sampleInstance "i-2" "two") rfl rfl (by simp)

/-- C9: if `Create` succeeds on a launch response that carries the single id `i`, then
for every provider list that contains an entry with id `i`, `Read` on the created state
succeeds and returns a state whose id is `i`; and when the list is made of the entry `e`
with id `i` and of other entries (ids different from `i`), `Read` returns the same
result for every reordering of the list. -/
theorem read_after_create [GoPrintable] (client : Client) (req : CreateRequest) (diags : Diagnostics)
    (body : String) (i : String) (rclient : Client) (rbody : String) (l : List Instance)
    (h1 : Diagnostics.HasError diags = false)
    (h2 : Diagnostics.HasError (Diagnostics.Append diags req.PlanGet) = false)
    (hr : (RetryContext createTimeout (capacityPoll client req.Plan)).err = none)
    (hl : client.LaunchInstanceWithResponse (launchBody req.Plan) = .ok ⟨200, body, some [i]⟩)
    (hlist : rclient.ListInstancesWithResponse = .ok ⟨rbody, some l⟩)
    (hmem : ∃ e ∈ l, e.Id = i) :
    ∃ created, (InstanceResource.Create client req diags).State = some created
      ∧ Diagnostics.HasError (InstanceResource.Create client req diags).Diagnostics = false
      ∧ created.ID = StringValue i
      ∧ (∃ s, (InstanceResource.Read rclient ⟨created, []⟩ []).State = some s
          ∧ s.ID = StringValue i)
      ∧ Diagnostics.HasError (InstanceResource.Read rclient ⟨created, []⟩ []).Diagnostics
          = false
      ∧ (∀ e others, l.Perm (e :: others) → e.Id = i → (∀ o ∈ others, o.Id ≠ i) →
          ∀ (rclient2 : Client) (rbody2 : String) (l2 : List Instance), l2.Perm l →
            rclient2.ListInstancesWithResponse = .ok ⟨rbody2, some l2⟩ →
            InstanceResource.Read rclient2 ⟨created, []⟩ []
              = InstanceResource.Read rclient ⟨created, []⟩ []) := by
  obtain ⟨hd, hs, _⟩ := Create_launch_ok client req diags body [i] h1 h2 hr hl
  refine ⟨_, hs i rfl, by rw [hd]; exact h2, rfl, ?_, ?_, ?_⟩
  · obtain ⟨e, _, _, hg⟩ := instancesById_mem l i hmem
    rw [Read_found rclient ⟨{ req.Plan with ID := StringValue i }, []⟩ [] rbody l _ rfl hlist hg]
    exact ⟨_, rfl, rfl⟩
  · obtain ⟨e, _, _, hg⟩ := instancesById_mem l i hmem
    rw [Read_found rclient ⟨{ req.Plan with ID := StringValue i }, []⟩ [] rbody l _ rfl hlist hg]
    rfl
  · intro e others hperm hid hothers rclient2 rbody2 l2 hperm2 hlist2
    subst hid
    have hg := instancesById_unique l others e hperm hothers
    have hg2 := instancesById_unique l2 others e (hperm2.trans hperm) hothers
    rw [Read_found rclient ⟨{ req.Plan with ID := StringValue e.Id }, []⟩ [] rbody l _
        rfl hlist hg,
      Read_found rclient2 ⟨{ req.Plan with ID := StringValue e.Id }, []⟩ [] rbody2 l2 _
        rfl hlist2 hg2]

/-- C9 at the sample provider: the instance `i-1` is created, then read from a list that
holds it between two other instances; the read state has the id `i-1`. -/
theorem read_after_create_witness :
    ∃ created, (InstanceResource.Create (sampleClient 0 (.ok ⟨200, "", some ["i-1"]⟩) [])
          ⟨samplePlan, []⟩ []).State = some created
      ∧ ∃ s, (InstanceResource.Read
            (sampleClient 0 (.ok ⟨200, "", some ["i-1"]⟩)
              [sampleInstance "i-7" "a", sampleInstance "i-1" "b", sampleInstance "i-9" "c"])
            ⟨created, []⟩ []).State = some s
          ∧ s.ID = StringValue "i-1" :=
  let ⟨created, hc, _, _, hs, _⟩ := read_after_create
    (sampleClient 0 (.ok ⟨200, "", some ["i-1"]⟩) []) ⟨samplePlan, []⟩ [] "" "i-1"
    (sampleClient 0 (.ok ⟨200, "", some ["i-1"]⟩)
      [sampleInstance "i-7" "a", sampleInstance "i-1" "b", sampleInstance "i-9" "c"])
    ""
    [sampleInstance "i-7" "a", sampleInstance "i-1" "b", sampleInstance "i-9" "c"]
    rfl rfl (congrArg RetryOutcome.err (sample_probe 0 _ _ (by decide))) rfl rfl
    ⟨sampleInstance "i-1" "b", by simp, rfl⟩
  ⟨created, hc, hs⟩

/-! ## Read: a tracked id that the provider does not list -/

theorem quoteChar_plain [GoPrintable] (c : Char) (h : plainChar c = true) :
    quoteChar c = String.mk [c] := by
  simp only [plainChar, decide_eq_true_eq] at h
  obtain ⟨h32, h127, h34, h92⟩ := h
  have hp : goIsPrint c = true := by
    unfold goIsPrint
    rw [if_pos (by omega)]
    simp only [decide_eq_true_eq]
    omega
  unfold quoteChar
  simp only [hp, if_true]
  rw [if_neg (by omega)]

theorem foldl_append_data (ss : List String) (acc : String) :
    (ss.foldl (fun r s => r ++ s) acc).data = acc.data ++ (ss.map String.data).flatten := by
  induction ss generalizing acc with
  | nil => simp
  | cons s ss ih => simp [ih, String.data_append]

theorem join_quoteChar_plain [GoPrintable] (cs : List Char)
    (h : ∀ c ∈ cs, plainChar c = true) :
    (String.join (cs.map quoteChar)).data = cs := by
  unfold String.join
  rw [foldl_append_data]
  induction cs with
  | nil => rfl
  | cons c cs ih =>
    have hc := quoteChar_plain c (h c (List.mem_cons_self _ _))
    have := ih (fun x hx => h x (List.mem_cons_of_mem _ hx))
    simp only [List.map_cons, List.flatten_cons, hc] at this ⊢
    simpa using this

theorem goQuote_plain [GoPrintable] (s : String) (h : ∀ c ∈ s.toList, plainChar c = true) :
    (goQuote s).data = Char.ofNat 34 :: (s.data ++ [Char.ofNat 34]) := by
  unfold goQuote
  simp only [String.data_append, join_quoteChar_plain s.toList h]
  rfl

/-- The no-break space is not printable for Go: quoting the id `i`, U+00A0, `1` gives
the escape `\u00a0` between the `i` and the `1`, for every table. -/
theorem goQuote_spacedId [GoPrintable] :
    goQuote spacedId
      = String.mk [Char.ofNat 34, 'i', Char.ofNat 92, 'u', '0', '0', 'a', '0', '1',
          Char.ofNat 34] := by
  rfl

theorem mem_AddError (d : Diagnostics) (s t : String) :
    (⟨Severity.error, s, t⟩ : Diagnostic) ∈ Diagnostics.AddError d s t := by
  unfold Diagnostics.AddError Diagnostics.Append
  simp only [List.foldl_cons, List.foldl_nil]
  split
  · rename_i h
    simpa using h
  · simp

theorem instancesById_none (l : List Instance) (k : String) (h : ∀ e ∈ l, e.Id ≠ k) :
    GoMap.get? (instancesById l) k = none := by
  rw [instancesById_get?]
  have : List.find? (fun x => k == x.Id) l.reverse = none := by
    rw [List.find?_eq_none]
    intro x hx
    have := h x (by simpa using hx)
    simpa using fun hk : k = x.Id => this hk.symm
  rw [this]
  rfl

theorem Read_missing [GoPrintable] (client : Client) (req : ReadRequest) (diags : Diagnostics)
    (body : String) (l : List Instance)
    (h1 : Diagnostics.HasError (Diagnostics.Append diags req.StateGet) = false)
    (hl : client.ListInstancesWithResponse = .ok ⟨body, some l⟩)
    (hg : GoMap.get? (instancesById l) req.State.ID.ValueString = none) :
    InstanceResource.Read client req diags
      = ⟨Diagnostics.AddError (Diagnostics.Append diags req.StateGet) "Failed to read instance"
          ("Unable to read instance " ++ req.State.ID.String ++ ", got error: " ++ body),
         none⟩ := by
  unfold InstanceResource.Read
  simp only [h1, hl, hg, Bool.false_eq_true, if_false]

/-- When the provider's list contains no entry with the tracked id (the empty list
included), `Read` reports an error and writes no state; the error is `Failed to read
instance` and its detail is `Unable to read instance <id>, got error: <body>`, where
`<id>` is the tracked id as `%s` prints a `types.String`, that is the quoted id. For an
id of printable ASCII characters without double quote and backslash the detail so
contains the id itself. -/
theorem Read_missing_detail [GoPrintable] (client : Client) (req : ReadRequest)
    (diags : Diagnostics) (body : String) (l : List Instance)
    (h1 : Diagnostics.HasError (Diagnostics.Append diags req.StateGet) = false)
    (hl : client.ListInstancesWithResponse = .ok ⟨body, some l⟩)
    (hno : ∀ e ∈ l, e.Id ≠ req.State.ID.ValueString) :
    Diagnostics.HasError (InstanceResource.Read client req diags).Diagnostics = true
    ∧ (InstanceResource.Read client req diags).State = none
    ∧ (⟨Severity.error, "Failed to read instance",
          "Unable to read instance " ++ req.State.ID.String ++ ", got error: " ++ body⟩
        : Diagnostic) ∈ (InstanceResource.Read client req diags).Diagnostics
    ∧ (∀ id, req.State.ID = TfString.value id → (∀ c ∈ id.toList, plainChar c = true) →
        id.toList <:+: ("Unable to read instance " ++ req.State.ID.String
          ++ ", got error: " ++ body).toList) := by
  rw [Read_missing client req diags body l h1 hl (instancesById_none l _ hno)]
  refine ⟨HasError_AddError _ _ _, rfl, mem_AddError _ _ _, ?_⟩
  intro id hid hplain
  rw [hid]
  simp only [TfString.String, String.toList, String.data_append, goQuote_plain id hplain]
  exact ⟨"Unable to read instance ".data ++ [Char.ofNat 34],
    Char.ofNat 34 :: (", got error: ".data ++ body.data), by simp⟩

/-- C11, on the code: for the tracked id made of `a`, a double quote and `b`, which the
provider's (empty) list does not contain, `Read` reports the error `Failed to read
instance` and writes no state, as the claim says; but the detail of the error holds the
id as `%s` prints a `types.String`, quoted and with the double quote escaped, and so
does not contain the tracked id. The data source, on the same id and list, reports a
detail built from `ValueString`, which contains the id. This holds for every table of
printable runes. -/
theorem read_missing_quotes_id [GoPrintable] :
    Diagnostics.HasError (InstanceResource.Read (sampleClient 0 (.error "unused") [])
        ⟨{ samplePlan with ID := TfString.value quotedId }, []⟩ []).Diagnostics = true
    ∧ (InstanceResource.Read (sampleClient 0 (.error "unused") [])
        ⟨{ samplePlan with ID := TfString.value quotedId }, []⟩ []).State = none
    ∧ (InstanceResource.Read (sampleClient 0 (.error "unused") [])
        ⟨{ samplePlan with ID := TfString.value quotedId }, []⟩ []).Diagnostics
      = [⟨Severity.error, "Failed to read instance",
          "Unable to read instance "
            ++ String.mk [Char.ofNat 34, 'a', Char.ofNat 92, Char.ofNat 34, 'b', Char.ofNat 34]
            ++ ", got error: "⟩]
    ∧ ¬ (quotedId.toList <:+: ("Unable to read instance "
            ++ String.mk [Char.ofNat 34, 'a', Char.ofNat 92, Char.ofNat 34, 'b', Char.ofNat 34]
            ++ ", got error: ").toList)
    ∧ (instanceDataSource.Read (sampleClient 0 (.error "unused") [])
        ⟨sampleDataSourceConfig quotedId, []⟩ []).Diagnostics
      = [⟨Severity.error, "Unable to Read Lambda Labs Instances",
          "Instance with ID " ++ quotedId ++ " not found"⟩]
    ∧ quotedId.toList <:+: ("Instance with ID " ++ quotedId ++ " not found").toList := by
  refine ⟨rfl, rfl, rfl, ?_, rfl, ?_⟩
  · decide
  · decide

/-- C12, on the code: on the list of two entries with the id `i-1`, named `first` and
`second` in this order, `Read` for the tracked id `i-1` writes the name `second`, not the
name of the first entry with that id; the scan of the data source, on the same list and
id, stops at the first entry. -/
theorem read_repeated_id_not_first [GoPrintable] :
    (InstanceResource.Read
        (sampleClient 0 (.ok ⟨200, "", some ["i-1"]⟩)
          [sampleInstance "i-1" "first", sampleInstance "i-1" "second"])
        ⟨{ samplePlan with ID := TfString.value "i-1" }, []⟩ []).State.map
          InstanceResourceModel.Name = some (TfString.value "second")
    ∧ ¬ ((InstanceResource.Read
        (sampleClient 0 (.ok ⟨200, "", some ["i-1"]⟩)
          [sampleInstance "i-1" "first", sampleInstance "i-1" "second"])
        ⟨{ samplePlan with ID := TfString.value "i-1" }, []⟩ []).State.map
          InstanceResourceModel.Name
        = some (StringPointerValue (sampleInstance "i-1" "first").Name))
    ∧ (instanceDataSource.Read
        (sampleClient 0 (.ok ⟨200, "", some ["i-1"]⟩)
          [sampleInstance "i-1" "first", sampleInstance "i-1" "second"])
        ⟨sampleDataSourceConfig "i-1", []⟩ []).State.map InstanceDataSourceModel.Name
      = some (TfString.value "first") := by
  have hg := instancesById_last [sampleInstance "i-1" "first"] []
    (sampleInstance "i-1" "second") (by simp)
  have hr := Read_found_entry
    (sampleClient 0 (.ok ⟨200, "", some ["i-1"]⟩)
      [sampleInstance "i-1" "first", sampleInstance "i-1" "second"])
    ⟨{ samplePlan with ID := TfString.value "i-1" }, []⟩ [] ""
    [sampleInstance "i-1" "first", sampleInstance "i-1" "second"]
    (sampleInstance "i-1" "second") rfl rfl hg
  rw [hr]
  refine ⟨rfl, ?_, rfl⟩
  simp [sampleInstance, StringPointerValue, StringValue]

/-! ## Update -/

/-- C13: for every request, `InstanceResource.Update` and `SshKeyResource.Update` report
the error `Update not supported`, send no request to the provider and store no state; a
`Read` made right after the attempted `Update`, on the state that the framework then
holds and against the same provider, returns what a `Read` made before it returns. -/
theorem update_not_supported [GoPrintable] (ireq : UpdateRequest InstanceResourceModel)
    (sreq : UpdateRequest SshKeyResourceModel) (diags : Diagnostics)
    (client : Client) (sclient : SshKeyClient) (stateGet rdiags : Diagnostics) :
    ((⟨Severity.error, "Update not supported",
        "Lambda Labs Instance resource does not support updates. please report this issue to the provider developers."⟩
        : Diagnostic) ∈ (InstanceResource.Update ireq diags).Diagnostics
      ∧ Diagnostics.HasError (InstanceResource.Update ireq diags).Diagnostics = true
      ∧ (InstanceResource.Update ireq diags).State = none
      ∧ (InstanceResource.Update ireq diags).requests = 0
      ∧ InstanceResource.Read client
          ⟨stateAfter ireq.State (InstanceResource.Update ireq diags).State, stateGet⟩ rdiags
        = InstanceResource.Read client ⟨ireq.State, stateGet⟩ rdiags)
    ∧ ((⟨Severity.error, "Update not supported",
        "SSH Key resource does not support updates. please report this issue to the provider developers."⟩
        : Diagnostic) ∈ (SshKeyResource.Update sreq diags).Diagnostics
      ∧ Diagnostics.HasError (SshKeyResource.Update sreq diags).Diagnostics = true
      ∧ (SshKeyResource.Update sreq diags).State = none
      ∧ (SshKeyResource.Update sreq diags).requests = 0
      ∧ SshKeyResource.Read sclient
          ⟨stateAfter sreq.State (SshKeyResource.Update sreq diags).State, stateGet⟩ rdiags
        = SshKeyResource.Read sclient ⟨sreq.State, stateGet⟩ rdiags) :=
  ⟨⟨mem_AddError _ _ _, HasError_AddError _ _ _, rfl, rfl, rfl⟩,
   ⟨mem_AddError _ _ _, HasError_AddError _ _ _, rfl, rfl, rfl⟩⟩

/-! ## Delete -/

theorem Delete_calls [GoPrintable] (client : TerminateClient) (req : DeleteRequest) (diags : Diagnostics)
    (h1 : Diagnostics.HasError (Diagnostics.Append diags req.StateGet) = false) :
    (InstanceResource.Delete client req diags).calls
      = [{ InstanceIds := [req.State.ID.ValueString] }] := by
  unfold InstanceResource.Delete
  simp only [h1, Bool.false_eq_true, if_false]
  split
  · rfl
  · split
    · rfl
    · split <;> rfl

theorem Delete_Diagnostics [GoPrintable] (client : TerminateClient) (req : DeleteRequest)
    (diags : Diagnostics) (body : String) (terminated : List Instance)
    (h1 : Diagnostics.HasError (Diagnostics.Append diags req.StateGet) = false)
    (hl : client.TerminateInstanceWithResponse { InstanceIds := [req.State.ID.ValueString] }
      = .ok ⟨200, body, some terminated⟩) :
    (InstanceResource.Delete client req diags).Diagnostics
      = if terminated = [] then
          Diagnostics.AddError (Diagnostics.Append diags req.StateGet)
            "Failed to delete instances"
            ("Unable to delete instances " ++ req.State.ID.String ++ ", got error: " ++ body)
        else Diagnostics.Append diags req.StateGet := by
  unfold InstanceResource.Delete
  simp only [h1, hl, Bool.false_eq_true, if_false, ne_eq, not_true_eq_false,
    foldl_append_singleton, List.nil_append, List.length_map, List.length_eq_zero]

theorem Delete_prior_error [GoPrintable] (client : TerminateClient) (req : DeleteRequest)
    (diags : Diagnostics)
    (h1 : Diagnostics.HasError (Diagnostics.Append diags req.StateGet) = true) :
    InstanceResource.Delete client req diags = ⟨Diagnostics.Append diags req.StateGet, []⟩ := by
  unfold InstanceResource.Delete
  simp only [h1, if_true]

/-- C14: when the terminate response is a 200 with a body whose list of terminated
instances is empty, `Delete` reports an error (the framework then keeps the resource in
the state). -/
theorem delete_none_terminated [GoPrintable] (client : TerminateClient) (req : DeleteRequest)
    (diags : Diagnostics) (body : String)
    (hl : client.TerminateInstanceWithResponse { InstanceIds := [req.State.ID.ValueString] }
      = .ok ⟨200, body, some []⟩) :
    Diagnostics.HasError (InstanceResource.Delete client req diags).Diagnostics = true := by
  by_cases h1 : Diagnostics.HasError (Diagnostics.Append diags req.StateGet) = true
  · rw [Delete_prior_error client req diags h1]
    exact h1
  · rw [Delete_Diagnostics client req diags body [] (by simpa using h1) hl, if_pos rfl]
    exact HasError_AddError _ _ _

/-- C14 at the scenario of the specification: the id `i-1`, no terminated id. -/
theorem delete_none_terminated_witness :
    Diagnostics.HasError (InstanceResource.Delete
        ⟨fun _ => .ok ⟨200, "", some []⟩⟩
        ⟨{ samplePlan with ID := TfString.value "i-1" }, []⟩ []).Diagnostics = true :=
  delete_none_terminated ⟨fun _ => .ok ⟨200, "", some []⟩⟩
    ⟨{ samplePlan with ID := TfString.value "i-1" }, []⟩ [] "" rfl

/-- C15: when the terminate response is a 200 with a body whose list of terminated
instances contains an entry with the tracked id, `Delete` reports no error, whatever the
length of the list (more than one terminated id is not an error). -/
theorem delete_terminated_ok [GoPrintable] (client : TerminateClient) (req : DeleteRequest)
    (diags : Diagnostics) (body : String) (terminated : List Instance)
    (h1 : Diagnostics.HasError (Diagnostics.Append diags req.StateGet) = false)
    (hl : client.TerminateInstanceWithResponse { InstanceIds := [req.State.ID.ValueString] }
      = .ok ⟨200, body, some terminated⟩)
    (hmem : ∃ x ∈ terminated, x.Id = req.State.ID.ValueString) :
    Diagnostics.HasError (InstanceResource.Delete client req diags).Diagnostics = false
    ∧ (InstanceResource.Delete client req diags).Diagnostics
      = Diagnostics.Append diags req.StateGet := by
  have hne : terminated ≠ [] := by
    obtain ⟨x, hx, _⟩ := hmem
    exact List.ne_nil_of_mem hx
  rw [Delete_Diagnostics client req diags body terminated h1 hl, if_neg hne]
  exact ⟨h1, rfl⟩

/-- C15 at the id `i-1` with two terminated instances, `i-1` and `i-2`. -/
theorem delete_terminated_ok_witness :
    Diagnostics.HasError (InstanceResource.Delete
        ⟨fun _ => .ok ⟨200, "", some [sampleInstance "i-1" "a", sampleInstance "i-2" "b"]⟩⟩
        ⟨{ samplePlan with ID := TfString.value "i-1" }, []⟩ []).Diagnostics = false :=
  (delete_terminated_ok
    ⟨fun _ => .ok ⟨200, "", some [sampleInstance "i-1" "a", sampleInstance "i-2" "b"]⟩⟩
    ⟨{ samplePlan with ID := TfString.value "i-1" }, []⟩ [] ""
    [sampleInstance "i-1" "a", sampleInstance "i-2" "b"] rfl rfl
    ⟨sampleInstance "i-1" "a", by simp, rfl⟩).1

/-- C16: for every prior state (decoded without error), `Delete` sends exactly one
terminate request, and the list of instance ids of that request has the tracked id of
the state as its only element. -/
theorem delete_request [GoPrintable] (client : TerminateClient) (req : DeleteRequest) (diags : Diagnostics)
    (h1 : Diagnostics.HasError (Diagnostics.Append diags req.StateGet) = false) :
    ∃ body, (InstanceResource.Delete client req diags).calls = [body]
      ∧ body.InstanceIds = [req.State.ID.ValueString]
      ∧ body.InstanceIds.length = 1 :=
  ⟨_, Delete_calls client req diags h1, rfl, rfl⟩

/-- C16 at the id `i-1`, with a provider that answers by an error. -/
theorem delete_request_witness :
    ∃ body, (InstanceResource.Delete ⟨fun _ => .error "connection refused"⟩
        ⟨{ samplePlan with ID := TfString.value "i-1" }, []⟩ []).calls = [body]
      ∧ body.InstanceIds = ["i-1"] :=
  let ⟨body, h, hb, _⟩ := delete_request ⟨fun _ => .error "connection refused"⟩
    ⟨{ samplePlan with ID := TfString.value "i-1" }, []⟩ [] rfl
  ⟨body, h, hb⟩

/-! ## Schemas -/

theorem requiresReplace_of_mem {α : Type} [DecidableEq α] (a : Attribute)
    (h : PlanModifier.RequiresReplace ∈ a.PlanModifiers) (s p : α) (hne : p ≠ s) :
    a.requiresReplace s p = true := by
  unfold Attribute.requiresReplace
  rw [List.any_eq_true]
  exact ⟨_, h, by simp [PlanModifier.requiresReplace, hne]⟩

/-- C17: in the schema of the instance resource each of `name`, `instance_type`, `region`,
`ssh_key_names` and `filesystem_names` carries the plan modifier `RequiresReplace`, and
in the schema of the SSH key resource `name` and `public_key` do; so a planned change of
any of these attributes of an existing resource asks for replacement. -/
theorem schema_requires_replace :
    (∀ name ∈ ["name", "instance_type", "region", "ssh_key_names", "filesystem_names"],
      ∃ a, GoMap.get? InstanceResource.Schema name = some a
        ∧ PlanModifier.RequiresReplace ∈ a.PlanModifiers
        ∧ ∀ (α : Type) [DecidableEq α] (s p : α), p ≠ s → a.requiresReplace s p = true)
    ∧ (∀ name ∈ ["name", "public_key"],
      ∃ a, GoMap.get? SshKeyResource.Schema name = some a
        ∧ PlanModifier.RequiresReplace ∈ a.PlanModifiers
        ∧ ∀ (α : Type) [DecidableEq α] (s p : α), p ≠ s → a.requiresReplace s p = true) := by
  constructor
  · intro name hmem
    simp only [List.mem_cons, List.mem_singleton, List.not_mem_nil, or_false] at hmem
    rcases hmem with rfl | rfl | rfl | rfl | rfl
    all_goals
      refine ⟨_, rfl, ?_, ?_⟩
      · simp
      · intro α _ s p hne
        exact requiresReplace_of_mem _ (by simp) s p hne
  · intro name hmem
    simp only [List.mem_cons, List.mem_singleton, List.not_mem_nil, or_false] at hmem
    rcases hmem with rfl | rfl
    all_goals
      refine ⟨_, rfl, ?_, ?_⟩
      · simp
      · intro α _ s p hne
        exact requiresReplace_of_mem _ (by simp) s p hne

/-- C17 at a change of the instance type from `gpu.1x` to `gpu.8x`. -/
theorem schema_requires_replace_witness :
    ∃ a, GoMap.get? InstanceResource.Schema "instance_type" = some a
      ∧ a.requiresReplace "gpu.1x" "gpu.8x" = true :=
  let ⟨a, h, _, hr⟩ := schema_requires_replace.1 "instance_type" (by simp)
  ⟨a, h, hr String "gpu.1x" "gpu.8x" (by decide)⟩

theorem ValidateList_max_one (v : TfList) :
    Diagnostics.HasError
        ((ListMaxLength.mk 1).ValidateList v []) = true
      ↔ (v.IsNull = false ∧ 1 < v.Elements.length) := by
  unfold ListMaxLength.ValidateList
  cases hn : v.IsNull
  · simp only [Bool.false_eq_true, if_false, true_and]
    by_cases hlen : 1 < v.Elements.length
    · have : (v.Elements.length : Int) > 1 := by omega
      simp only [this, if_true, HasError_AddError, hlen]
    · have : ¬ (v.Elements.length : Int) > 1 := by omega
      simp [this, hlen, Diagnostics.HasError]
  · simp [Diagnostics.HasError]

/-- C18, on the code: the validation of `ssh_key_names` (and of `filesystem_names`)
rejects a configured list exactly when it is not null and has more than one element. In
particular the empty list of SSH key names is accepted, although the attribute is
described as taking exactly one key. -/
theorem ssh_key_names_validation :
    (∃ a, GoMap.get? InstanceResource.Schema "ssh_key_names" = some a
      ∧ (∀ v, Diagnostics.HasError (a.ValidateList v) = true
          ↔ (v.IsNull = false ∧ 1 < v.Elements.length))
      ∧ Diagnostics.HasError (a.ValidateList (TfList.value .StringType [])) = false
      ∧ a.MarkdownDescription
        = "List of SSH Key names to be added to the instance. Currently, exactly one SSH key must be specified.")
    ∧ (∃ a, GoMap.get? InstanceResource.Schema "filesystem_names" = some a
      ∧ (∀ v, Diagnostics.HasError (a.ValidateList v) = true
          ↔ (v.IsNull = false ∧ 1 < v.Elements.length))) := by
  refine ⟨⟨_, rfl, fun v => ValidateList_max_one v, ?_, rfl⟩, ⟨_, rfl, fun v => ValidateList_max_one v⟩⟩
  rfl

/-! ## The SSH key resource -/

/-- C19: for every plan (decoded without error), `SshKeyResource.Create` sends one
add-key request whose name and public key are those of the plan; on a response with a
success body it reports no error and writes a state whose id, name and public key are
those returned by the provider; on a client error or a response without a success body
it reports an error and writes no state. -/
theorem ssh_key_create (client : SshKeyClient) (req : SshKeyCreateRequest)
    (diags : Diagnostics)
    (h1 : Diagnostics.HasError diags = false)
    (h2 : Diagnostics.HasError (Diagnostics.Append diags req.PlanGet) = false) :
    (SshKeyResource.Create client req diags).calls
      = [{ Name := req.Plan.Name.ValueString
           PublicKey := req.Plan.PublicKey.ValueStringPointer }]
    ∧ (∀ n, req.Plan.Name = TfString.value n → ∀ k, req.Plan.PublicKey = TfString.value k →
        (SshKeyResource.Create client req diags).calls = [{ Name := n, PublicKey := some k }])
    ∧ (∀ response key,
        client.AddSSHKeyWithResponse
            { Name := req.Plan.Name.ValueString
              PublicKey := req.Plan.PublicKey.ValueStringPointer } = .ok response →
        response.JSON200 = some key →
        (SshKeyResource.Create client req diags).State
            = some { Id := StringValue key.Id
                     Name := StringValue key.Name
                     PublicKey := StringValue key.PublicKey }
          ∧ Diagnostics.HasError (SshKeyResource.Create client req diags).Diagnostics = false)
    ∧ (((∃ err, client.AddSSHKeyWithResponse
            { Name := req.Plan.Name.ValueString
              PublicKey := req.Plan.PublicKey.ValueStringPointer } = .error err)
        ∨ ∃ response, client.AddSSHKeyWithResponse
            { Name := req.Plan.Name.ValueString
              PublicKey := req.Plan.PublicKey.ValueStringPointer } = .ok response
          ∧ response.JSON200 = none) →
        Diagnostics.HasError (SshKeyResource.Create client req diags).Diagnostics = true
          ∧ (SshKeyResource.Create client req diags).State = none) := by
  have hcalls : (SshKeyResource.Create client req diags).calls
      = [{ Name := req.Plan.Name.ValueString
           PublicKey := req.Plan.PublicKey.ValueStringPointer }] := by
    unfold SshKeyResource.Create
    simp only [h1, h2, Bool.false_eq_true, if_false]
    split
    · rfl
    · split <;> rfl
  refine ⟨hcalls, ?_, ?_, ?_⟩
  · intro n hn k hk
    rw [hcalls, hn, hk]
    rfl
  · intro response key hr hj
    unfold SshKeyResource.Create
    simp only [h1, h2, hr, hj, Bool.false_eq_true, if_false]
    exact ⟨trivial, trivial⟩
  · rintro (⟨err, he⟩ | ⟨response, hr, hj⟩)
    · unfold SshKeyResource.Create
      simp only [h1, h2, he, Bool.false_eq_true, if_false]
      exact ⟨HasError_AddError _ _ _, trivial⟩
    · unfold SshKeyResource.Create
      simp only [h1, h2, hr, hj, Bool.false_eq_true, if_false]
      exact ⟨HasError_AddError _ _ _, trivial⟩

/-- C19 at the sample key plan, with a provider that issues the id `key-1`. -/
theorem ssh_key_create_witness :
    (SshKeyResource.Create
        (sampleKeyClient (.ok ⟨200, "", some ⟨"key-1", "k1", "ssh-ed25519 AAAA"⟩⟩) [])
        ⟨sampleKeyPlan, []⟩ []).State
      = some { Id := TfString.value "key-1"
               Name := TfString.value "k1"
               PublicKey := TfString.value "ssh-ed25519 AAAA" }
    ∧ (SshKeyResource.Create
        (sampleKeyClient (.ok ⟨200, "", some ⟨"key-1", "k1", "ssh-ed25519 AAAA"⟩⟩) [])
        ⟨sampleKeyPlan, []⟩ []).calls
      = [{ Name := "k1", PublicKey := some "ssh-ed25519 AAAA" }] :=
  have h := ssh_key_create
    (sampleKeyClient (.ok ⟨200, "", some ⟨"key-1", "k1", "ssh-ed25519 AAAA"⟩⟩) [])
    ⟨sampleKeyPlan, []⟩ [] rfl rfl
  ⟨(h.2.2.1 ⟨200, "", some ⟨"key-1", "k1", "ssh-ed25519 AAAA"⟩⟩
      ⟨"key-1", "k1", "ssh-ed25519 AAAA"⟩ rfl rfl).1,
   h.2.1 "k1" rfl "ssh-ed25519 AAAA" rfl⟩

theorem findKey_none (name : String) (keys : List SshKey) (index : Nat) :
    findKey name keys index = none ↔ ∀ k ∈ keys, k.Name ≠ name := by
  induction keys generalizing index with
  | nil => simp [findKey]
  | cons k ks ih =>
    unfold findKey
    by_cases hk : name = k.Name
    · simp [hk]
    · have hk2 : k.Name ≠ name := fun h => hk h.symm
      simp [hk, hk2, ih]

theorem findKey_some (name : String) (keys : List SshKey) (index j : Nat) (k : SshKey)
    (h : findKey name keys index = some (j, k)) :
    ∃ pre post, keys = pre ++ k :: post ∧ k.Name = name
      ∧ (∀ o ∈ pre, o.Name ≠ name) ∧ j = index + pre.length := by
  induction keys generalizing index with
  | nil => simp [findKey] at h
  | cons x xs ih =>
    unfold findKey at h
    by_cases hx : name = x.Name
    · simp only [hx, beq_self_eq_true, if_true, Option.some.injEq, Prod.mk.injEq] at h
      obtain ⟨h1, h2⟩ := h
      subst h2
      exact ⟨[], xs, rfl, hx.symm, by simp, by simpa using h1.symm⟩
    · have hb : (name == x.Name) = false := by simpa using hx
      simp only [hb, Bool.false_eq_true, if_false] at h
      obtain ⟨pre, post, hs, hn, hp, hj⟩ := ih (index + 1) h
      refine ⟨x :: pre, post, by rw [hs]; rfl, hn, ?_, by simp only [List.length_cons]; omega⟩
      intro o ho
      rcases List.mem_cons.mp ho with rfl | ho
      · exact fun h => hx h.symm
      · exact hp o ho

/-- C20: `SshKeyResource.Read` matches by name. When some key of the provider's list has
the name of the state, `Read` reports no error and writes a state whose public key is
that of the first such key, whose id is the id of the prior state and whose name is the
name of the prior state (as a known value); the id of the key plays no part. When no key
has that name, `Read` reports no error and writes no state. -/
theorem ssh_key_read (client : SshKeyClient) (req : SshKeyReadRequest) (diags : Diagnostics)
    (body : String) (keys : List SshKey)
    (h1 : Diagnostics.HasError (Diagnostics.Append diags req.StateGet) = false)
    (hl : client.ListSSHKeysWithResponse = .ok ⟨body, some keys⟩) :
    ((∃ k ∈ keys, k.Name = req.State.Name.ValueString) →
      ∃ pre k post, keys = pre ++ k :: post ∧ k.Name = req.State.Name.ValueString
        ∧ (∀ o ∈ pre, o.Name ≠ req.State.Name.ValueString)
        ∧ (SshKeyResource.Read client req diags).State
          = some { Id := req.State.Id
                   Name := StringValue req.State.Name.ValueString
                   PublicKey := StringValue k.PublicKey }
        ∧ (∀ n, req.State.Name = TfString.value n →
            (SshKeyResource.Read client req diags).State
              = some { Id := req.State.Id
                       Name := req.State.Name
                       PublicKey := StringValue k.PublicKey })
        ∧ Diagnostics.HasError (SshKeyResource.Read client req diags).Diagnostics = false)
    ∧ ((∀ k ∈ keys, k.Name ≠ req.State.Name.ValueString) →
      (SshKeyResource.Read client req diags).State = none
        ∧ (SshKeyResource.Read client req diags).Diagnostics
          = Diagnostics.Append diags req.StateGet
        ∧ Diagnostics.HasError (SshKeyResource.Read client req diags).Diagnostics = false) := by
  constructor
  · intro hmem
    cases hf : findKey req.State.Name.ValueString keys 0 with
    | none =>
      obtain ⟨k, hk, hn⟩ := hmem
      exact absurd hn ((findKey_none _ _ _).mp hf k hk)
    | some r =>
      obtain ⟨j, k⟩ := r
      obtain ⟨pre, post, hs, hn, hp, _⟩ := findKey_some _ _ _ _ _ hf
      have hstate : (SshKeyResource.Read client req diags).State
          = some { Id := req.State.Id
                   Name := StringValue req.State.Name.ValueString
                   PublicKey := StringValue k.PublicKey } := by
        unfold SshKeyResource.Read
        simp only [h1, hl, hf, Bool.false_eq_true, if_false, hn]
      refine ⟨pre, k, post, hs, hn, hp, hstate, ?_, ?_⟩
      · intro n hname
        rw [hstate, hname]
        rfl
      · unfold SshKeyResource.Read
        simp only [h1, hl, hf, Bool.false_eq_true, if_false]
  · intro hno
    have hf := (findKey_none req.State.Name.ValueString keys 0).mpr hno
    unfold SshKeyResource.Read
    simp only [h1, hl, hf, Bool.false_eq_true, if_false]
    exact ⟨trivial, trivial, trivial⟩

/-- C20 at a state named `k1` with the id `key-1`, against a list in which two keys are
named `k1`, under other ids: the public key of the first is written, the id is kept. -/
theorem ssh_key_read_witness :
    ∃ pre k post,
      [(⟨"key-7", "k0", "pk0"⟩ : SshKey), ⟨"key-8", "k1", "pk1"⟩, ⟨"key-9", "k1", "pk2"⟩]
        = pre ++ k :: post
      ∧ (∀ o ∈ pre, o.Name ≠ "k1")
      ∧ (SshKeyResource.Read
          (sampleKeyClient (.error "unused")
            [⟨"key-7", "k0", "pk0"⟩, ⟨"key-8", "k1", "pk1"⟩, ⟨"key-9", "k1", "pk2"⟩])
          ⟨{ sampleKeyPlan with Id := TfString.value "key-1" }, []⟩ []).State
        = some { Id := TfString.value "key-1"
                 Name := TfString.value "k1"
                 PublicKey := StringValue k.PublicKey } :=
  let ⟨pre, k, post, hs, _, hp, _, hn, _⟩ := (ssh_key_read
    (sampleKeyClient (.error "unused")
      [⟨"key-7", "k0", "pk0"⟩, ⟨"key-8", "k1", "pk1"⟩, ⟨"key-9", "k1", "pk2"⟩])
    ⟨{ sampleKeyPlan with Id := TfString.value "key-1" }, []⟩ [] ""
    [⟨"key-7", "k0", "pk0"⟩, ⟨"key-8", "k1", "pk1"⟩, ⟨"key-9", "k1", "pk2"⟩] rfl rfl).1
    ⟨⟨"key-8", "k1", "pk1"⟩, by simp, rfl⟩
  ⟨pre, k, post, hs, hp, hn "k1" rfl⟩

/-- C21: for every prior state (decoded without error), `SshKeyResource.Delete` sends
exactly one delete request, for the id held in the state, and it reports an error if and
only if the client call returns an error or the status code of the response is not
200. -/
theorem ssh_key_delete (client : SshKeyClient) (req : SshKeyDeleteRequest)
    (diags : Diagnostics)
    (h1 : Diagnostics.HasError (Diagnostics.Append diags req.StateGet) = false) :
    (SshKeyResource.Delete client req diags).calls = [req.State.Id.ValueString]
    ∧ (Diagnostics.HasError (SshKeyResource.Delete client req diags).Diagnostics = true
        ↔ ((∃ err, client.DeleteSSHKeyWithResponse req.State.Id.ValueString = .error err)
          ∨ ∃ response, client.DeleteSSHKeyWithResponse req.State.Id.ValueString = .ok response
              ∧ response.StatusCode ≠ 200)) := by
  unfold SshKeyResource.Delete
  simp only [h1, Bool.false_eq_true, if_false]
  cases hc : client.DeleteSSHKeyWithResponse req.State.Id.ValueString with
  | error err =>
    simp only [HasError_AddError, true_and, true_iff]
    exact Or.inl ⟨err, rfl⟩
  | ok response =>
    by_cases hs : response.StatusCode = 200
    · simp [hs, h1]
    · simp only [ne_eq, hs, not_false_eq_true, if_true, HasError_AddError, true_and, true_iff]
      exact Or.inr ⟨response, rfl, hs⟩

/-- C21 at the key id `key-1`, with a provider that answers the delete with status 404. -/
theorem ssh_key_delete_witness :
    (SshKeyResource.Delete
        ⟨fun _ => .error "unused", .error "unused", fun _ => .ok ⟨404, "not found"⟩⟩
        ⟨{ sampleKeyPlan with Id := TfString.value "key-1" }, []⟩ []).calls = ["key-1"]
    ∧ Diagnostics.HasError (SshKeyResource.Delete
        ⟨fun _ => .error "unused", .error "unused", fun _ => .ok ⟨404, "not found"⟩⟩
        ⟨{ sampleKeyPlan with Id := TfString.value "key-1" }, []⟩ []).Diagnostics = true :=
  have h := ssh_key_delete
    ⟨fun _ => .error "unused", .error "unused", fun _ => .ok ⟨404, "not found"⟩⟩
    ⟨{ sampleKeyPlan with Id := TfString.value "key-1" }, []⟩ [] rfl
  ⟨h.1, h.2.mpr (Or.inr ⟨⟨404, "not found"⟩, rfl, by decide⟩)⟩

/-! ## The provider -/

/-- C22: in `Configure` with known configuration values (and a configuration decoded
without error), the host passed to the client constructor is the configured host when
it is not null and the value of `LAMBDALABS_HOST` otherwise, the API key is the
configured key when it is not null and the value of `LAMBDALABS_API_KEY` otherwise;
`Configure` reports an error and provides no client if and only if that API key is the
empty string, and otherwise provides the client built from that host and that key. -/
theorem configure_resolution (env : Environment) (req : ConfigureRequest) (diags : Diagnostics)
    (h1 : Diagnostics.HasError (Diagnostics.Append diags req.ConfigGet) = false)
    (hh : req.Config.Host ≠ TfString.unknown) (hk : req.Config.ApiKey ≠ TfString.unknown) :
    ∃ host apiKey,
      host = (match req.Config.Host with
              | TfString.null => env.LAMBDALABS_HOST
              | other => other.ValueString)
      ∧ apiKey = (match req.Config.ApiKey with
                  | TfString.null => env.LAMBDALABS_API_KEY
                  | other => other.ValueString)
      ∧ ((Diagnostics.HasError (lambdalabsProvider.Configure env req diags).Diagnostics = true
            ∧ (lambdalabsProvider.Configure env req diags).ResourceData = none
            ∧ (lambdalabsProvider.Configure env req diags).DataSourceData = none)
          ↔ apiKey = "")
      ∧ (apiKey ≠ "" →
          Diagnostics.HasError (lambdalabsProvider.Configure env req diags).Diagnostics = false
          ∧ ∃ c, NewAuthenticatedClient host apiKey = .ok c
            ∧ c.BearerToken = apiKey
            ∧ (host ≠ "" → c.Server = host ∨ c.Server = host ++ "/")
            ∧ (lambdalabsProvider.Configure env req diags).ResourceData = some c
            ∧ (lambdalabsProvider.Configure env req diags).DataSourceData = some c) := by
  refine ⟨_, _, rfl, rfl, ?_⟩
  have hhu : req.Config.Host.IsUnknown = false := by
    cases h : req.Config.Host <;> simp_all [TfString.IsUnknown]
  have hku : req.Config.ApiKey.IsUnknown = false := by
    cases h : req.Config.ApiKey <;> simp_all [TfString.IsUnknown]
  have hhost : (if (!req.Config.Host.IsNull) = true then req.Config.Host.ValueString
      else env.LAMBDALABS_HOST)
      = (match req.Config.Host with
          | TfString.null => env.LAMBDALABS_HOST
          | other => other.ValueString) := by
    cases h : req.Config.Host <;> simp [TfString.IsNull]
  have hkey : (if (!req.Config.ApiKey.IsNull) = true then req.Config.ApiKey.ValueString
      else env.LAMBDALABS_API_KEY)
      = (match req.Config.ApiKey with
          | TfString.null => env.LAMBDALABS_API_KEY
          | other => other.ValueString) := by
    cases h : req.Config.ApiKey <;> simp [TfString.IsNull]
  unfold lambdalabsProvider.Configure
  simp only [h1, hhu, hku, Bool.false_eq_true, if_false, hhost, hkey]
  generalize (match req.Config.Host with
          | TfString.null => env.LAMBDALABS_HOST
          | other => other.ValueString) = host
  generalize (match req.Config.ApiKey with
          | TfString.null => env.LAMBDALABS_API_KEY
          | other => other.ValueString) = apiKey
  by_cases hempty : apiKey = ""
  · simp [hempty, HasError_AddError]
  · simp only [hempty, if_false, h1, Bool.false_eq_true, NewAuthenticatedClient,
      NewClientWithResponses]
    refine ⟨⟨fun h => h.1, fun h => h.elim⟩, fun _ => ⟨trivial, _, rfl, rfl, ?_, rfl, rfl⟩⟩
    · intro hne
      simp only [hne, if_false]
      split
      · exact Or.inl rfl
      · exact Or.inr rfl

/-- C22 at a configuration without host and key, the key being given by the
environment: the client is built for the default host with that key. -/
theorem configure_resolution_witness :
    (lambdalabsProvider.Configure ⟨"", "secret"⟩
        ⟨⟨TfString.null, TfString.null⟩, []⟩ []).ResourceData
      = some ⟨"https://cloud.lambdalabs.com/api/v1/", "secret"⟩ :=
  let ⟨_, _, hhost, hkey, _, h⟩ := configure_resolution ⟨"", "secret"⟩
    ⟨⟨TfString.null, TfString.null⟩, []⟩ [] rfl (by decide) (by decide)
  let ⟨_, hc, _, _, hr, _⟩ := (h (by rw [hkey]; decide)).2
  hr.trans (congrArg some (Except.ok.inj (hc.symm.trans (by rw [hhost, hkey]; rfl))))

/-! ## Validators and defaults -/

/-- C23, on the code: `ListDefaultEmpty.DefaultList` sets the plan value to the null list
of the configured element type, for every request; the value is null, so it is not the
known list with zero elements that the validator's description (`Default Value of empty
list for List fields`) announces. -/
theorem default_list_is_null (d : ListDefaultEmpty) :
    d.DefaultList = TfList.null d.ElementType
    ∧ d.DefaultList.IsNull = true
    ∧ d.DefaultList ≠ TfList.value d.ElementType []
    ∧ d.Description = "Default Value of empty list for List fields" :=
  ⟨rfl, rfl, fun h => (by cases h), rfl⟩

/-- C24: for every bound `max` and every configured list, `ListMaxLength.ValidateList`
adds an error if and only if the list is not null and has more than `max` elements; a
null list and a list of exactly `max` elements add nothing; at most one diagnostic is
added. -/
theorem validate_list_max_length (m : ListMaxLength) (v : TfList) (diags : Diagnostics) :
    (m.ValidateList v diags
        = if v.IsNull = false ∧ (v.Elements.length : Int) > m.max then
            Diagnostics.AddError diags "List too long"
              ("List is too long, max length is " ++ toString m.max)
          else diags)
    ∧ (Diagnostics.HasError (m.ValidateList v []) = true
        ↔ (v.IsNull = false ∧ (v.Elements.length : Int) > m.max))
    ∧ (v.IsNull = true → m.ValidateList v diags = diags)
    ∧ ((v.Elements.length : Int) = m.max → m.ValidateList v diags = diags)
    ∧ (m.ValidateList v diags).length ≤ diags.length + 1 := by
  have hmain : m.ValidateList v diags
      = if v.IsNull = false ∧ (v.Elements.length : Int) > m.max then
          Diagnostics.AddError diags "List too long"
            ("List is too long, max length is " ++ toString m.max)
        else diags := by
    unfold ListMaxLength.ValidateList
    cases hn : v.IsNull
    · by_cases hl : (v.Elements.length : Int) > m.max <;> simp [hl]
    · simp
  have hempty : m.ValidateList v []
      = if v.IsNull = false ∧ (v.Elements.length : Int) > m.max then
          Diagnostics.AddError [] "List too long"
            ("List is too long, max length is " ++ toString m.max)
        else [] := by
    unfold ListMaxLength.ValidateList
    cases hn : v.IsNull
    · by_cases hl : (v.Elements.length : Int) > m.max <;> simp [hl]
    · simp
  refine ⟨hmain, ?_, ?_, ?_, ?_⟩
  · rw [hempty]
    by_cases hc : v.IsNull = false ∧ (v.Elements.length : Int) > m.max
    · simp only [if_pos hc, HasError_AddError, true_iff]
      exact hc
    · simp only [if_neg hc, Diagnostics.HasError, List.any_nil, Bool.false_eq_true, false_iff]
      exact hc
  · intro hn
    rw [hmain, if_neg]
    simp [hn]
  · intro hl
    rw [hmain, if_neg]
    rintro ⟨_, h⟩
    omega
  · rw [hmain]
    split
    · unfold Diagnostics.AddError Diagnostics.Append
      simp only [List.foldl_cons, List.foldl_nil]
      split
      · omega
      · simp
    · omega

/-! ## helpers.go -/

/-- C25: for every slice of strings `xs`, `makeTfStringList xs` is a non-nil slice of the
length of `xs` whose element number `i` is the known value `xs[i]`, and
`makeStringListFromTf (makeTfStringList xs)` is the non-nil slice of the elements of
`xs`, in order; on an empty or nil input both functions return the empty, non-nil
slice. -/
theorem string_list_round_trip (xs : Slice String) :
    (∃ ys, makeTfStringList xs = some ys ∧ ys.length = xs.elems.length
      ∧ ∀ i (h : i < xs.elems.length), ys[i]? = some (TfString.value (xs.elems.get ⟨i, h⟩)))
    ∧ makeStringListFromTf (makeTfStringList xs) = some xs.elems
    ∧ makeTfStringList (some []) = some [] ∧ makeTfStringList none = some []
    ∧ makeStringListFromTf (some []) = some [] ∧ makeStringListFromTf none = some [] := by
  refine ⟨⟨_, makeTfStringList_eq xs, by simp, ?_⟩, ?_, rfl, rfl, rfl, rfl⟩
  · intro i h
    simp [StringValue, List.getElem?_eq_getElem h]
  · rw [makeTfStringList_eq, makeStringListFromTf_eq]
    have hid : (TfString.ValueString ∘ StringValue) = id := by
      funext x
      rfl
    simp only [Slice.elems, List.map_map, hid, List.map_id]

/-! ## Create: a launch that returns no id -/

/-- C26: when the launch response is a 200 with a success body whose list of instance
ids does not have exactly one element (the empty list in particular), `Create` reports
no error and writes the plan to the state as it is, the id of the plan not assigned. -/
theorem create_without_single_id (client : Client) (req : CreateRequest) (diags : Diagnostics)
    (body : String) (ids : List String)
    (h1 : Diagnostics.HasError diags = false)
    (h2 : Diagnostics.HasError (Diagnostics.Append diags req.PlanGet) = false)
    (hr : (RetryContext createTimeout (capacityPoll client req.Plan)).err = none)
    (hl : client.LaunchInstanceWithResponse (launchBody req.Plan) = .ok ⟨200, body, some ids⟩)
    (hn : ids.length ≠ 1) :
    Diagnostics.HasError (InstanceResource.Create client req diags).Diagnostics = false
    ∧ (InstanceResource.Create client req diags).State = some req.Plan
    ∧ (∃ s, (InstanceResource.Create client req diags).State = some s ∧ s.ID = req.Plan.ID) := by
  obtain ⟨hd, _, hm⟩ := Create_launch_ok client req diags body ids h1 h2 hr hl
  exact ⟨by rw [hd]; exact h2, hm hn, _, hm hn, rfl⟩

/-- C26 at the sample provider answering the launch with an empty list of ids: the state
is the plan, its id still unknown. -/
theorem create_without_single_id_witness :
    (InstanceResource.Create (sampleClient 0 (.ok ⟨200, "", some []⟩) [])
        ⟨samplePlan, []⟩ []).State = some samplePlan
    ∧ samplePlan.ID = TfString.unknown :=
  ⟨(create_without_single_id (sampleClient 0 (.ok ⟨200, "", some []⟩) [])
    ⟨samplePlan, []⟩ [] "" [] rfl rfl
    (congrArg RetryOutcome.err (sample_probe 0 _ _ (by decide))) rfl (by decide)).2.1, rfl⟩

/-! ## Delete: when an error is reported -/

/-- C27: for every prior state (decoded without error), `Delete` reports an error if and
only if the client call returns an error, or the status code is not 200, or the success
body is absent, or the list of terminated instances is empty. Whether the tracked id is
in the list is not checked: a 200 response whose list is not empty and does not contain
the tracked id gives no error. -/
theorem delete_error_iff [GoPrintable] (client : TerminateClient) (req : DeleteRequest) (diags : Diagnostics)
    (h1 : Diagnostics.HasError (Diagnostics.Append diags req.StateGet) = false) :
    (Diagnostics.HasError (InstanceResource.Delete client req diags).Diagnostics = true
      ↔ ((∃ err, client.TerminateInstanceWithResponse
            { InstanceIds := [req.State.ID.ValueString] } = .error err)
        ∨ ∃ response, client.TerminateInstanceWithResponse
            { InstanceIds := [req.State.ID.ValueString] } = .ok response
          ∧ (response.StatusCode ≠ 200 ∨ response.JSON200 = none
            ∨ response.JSON200 = some [])))
    ∧ (∀ body terminated, client.TerminateInstanceWithResponse
          { InstanceIds := [req.State.ID.ValueString] } = .ok ⟨200, body, some terminated⟩ →
        terminated ≠ [] → (∀ x ∈ terminated, x.Id ≠ req.State.ID.ValueString) →
        Diagnostics.HasError (InstanceResource.Delete client req diags).Diagnostics = false) := by
  constructor
  · cases hc : client.TerminateInstanceWithResponse
        { InstanceIds := [req.State.ID.ValueString] } with
    | error err =>
      unfold InstanceResource.Delete
      simp only [h1, hc, Bool.false_eq_true, if_false, HasError_AddError, true_iff]
      exact Or.inl ⟨err, rfl⟩
    | ok response =>
      obtain ⟨code, body, json⟩ := response
      by_cases hs : code = 200
      · subst hs
        cases json with
        | none =>
          unfold InstanceResource.Delete
          simp only [h1, hc, Bool.false_eq_true, if_false, ne_eq, not_true_eq_false,
            HasError_AddError, true_iff]
          exact Or.inr ⟨_, rfl, Or.inr (Or.inl rfl)⟩
        | some terminated =>
          rw [Delete_Diagnostics client req diags body terminated h1 hc]
          by_cases ht : terminated = []
          · rw [if_pos ht]
            simp only [HasError_AddError, true_iff]
            exact Or.inr ⟨_, rfl, Or.inr (Or.inr (by rw [ht]))⟩
          · rw [if_neg ht, h1]
            simp only [Bool.false_eq_true, false_iff, not_or, not_exists, not_and]
            refine ⟨fun err h => (by cases h), fun response h => ?_⟩
            cases h
            simp [ht]
      · unfold InstanceResource.Delete
        simp only [h1, hc, Bool.false_eq_true, if_false, ne_eq, hs, not_false_eq_true,
          if_true, HasError_AddError, true_iff]
        exact Or.inr ⟨_, rfl, Or.inl hs⟩
  · intro body terminated hc hne _
    rw [Delete_Diagnostics client req diags body terminated h1 hc, if_neg hne]
    exact h1

/-- C27 at the tracked id `i-1` with a provider that reports `i-2` as terminated: no
error. -/
theorem delete_error_iff_witness :
    Diagnostics.HasError (InstanceResource.Delete
        ⟨fun _ => .ok ⟨200, "", some [sampleInstance "i-2" "b"]⟩⟩
        ⟨{ samplePlan with ID := TfString.value "i-1" }, []⟩ []).Diagnostics = false :=
  (delete_error_iff ⟨fun _ => .ok ⟨200, "", some [sampleInstance "i-2" "b"]⟩⟩
    ⟨{ samplePlan with ID := TfString.value "i-1" }, []⟩ [] rfl).2 ""
    [sampleInstance "i-2" "b"] rfl (by simp) (by simp [sampleInstance, TfString.ValueString])

/-! ## ImportState -/

/-- C28, on the code: the attribute path that `InstanceResource.ImportState` passes the
imported id to is `ids`, which the schema of the instance resource does not declare (it
declares `id`); the path `id` of `SshKeyResource.ImportState` is declared in the schema
of the SSH key resource. -/
theorem import_state_path (id : String) :
    (InstanceResource.ImportState id).1 = "ids"
    ∧ GoMap.get? InstanceResource.Schema (InstanceResource.ImportState id).1 = none
    ∧ (GoMap.get? InstanceResource.Schema "id").isSome = true
    ∧ (SshKeyResource.ImportState id).1 = "id"
    ∧ (GoMap.get? SshKeyResource.Schema (SshKeyResource.ImportState id).1).isSome = true :=
  ⟨rfl, rfl, rfl, rfl, rfl⟩

/-! ## The map lookup of the resource and the scan of the data source -/

theorem findInstance_eq_find? (k : String) (l : List Instance) :
    findInstance k l = l.find? (fun x => k == x.Id) := by
  induction l with
  | nil => rfl
  | cons x xs ih =>
    unfold findInstance
    by_cases h : k = x.Id
    · simp [h]
    · simp [h, ih]

theorem find?_reverse_of_nodup (k : String) (l : List Instance)
    (hnd : (l.map Instance.Id).Nodup) :
    l.reverse.find? (fun x => k == x.Id) = l.find? (fun x => k == x.Id) := by
  have hinj : ∀ a ∈ l, ∀ b ∈ l, a.Id = b.Id → a = b :=
    fun a ha b hb h => List.inj_on_of_nodup_map hnd ha hb h
  cases hr : l.reverse.find? (fun x => k == x.Id) with
  | none =>
    symm
    rw [List.find?_eq_none] at hr ⊢
    intro x hx
    exact hr x (by simpa using hx)
  | some a =>
    have ha : a ∈ l := by simpa using List.mem_of_find?_eq_some hr
    have hka : k = a.Id := by simpa using List.find?_some hr
    cases hf : l.find? (fun x => k == x.Id) with
    | none =>
      have := List.find?_eq_none.mp hf a ha
      simp [hka] at this
    | some b =>
      have hb : b ∈ l := List.mem_of_find?_eq_some hf
      have hkb : k = b.Id := by simpa using List.find?_some hf
      rw [hinj a ha b hb (hka.symm.trans hkb)]

/-- C29: for every provider list whose ids are pairwise distinct and every id, the map
lookup of `InstanceResource.Read` and the first-match scan of `instanceDataSource.Read`
agree: both find nothing, or both find the same entry (the same model). On a list that
repeats an id they can differ: the resource takes the last entry with the id, the data
source the first. -/
theorem read_lookup_agrees :
    (∀ (l : List Instance) (k : String), (l.map Instance.Id).Nodup →
      GoMap.get? (instancesById l) k = (findInstance k l).map instanceModel)
    ∧ (GoMap.get? (instancesById [sampleInstance "i-1" "first", sampleInstance "i-1" "second"])
          "i-1" = some (instanceModel (sampleInstance "i-1" "second"))
      ∧ findInstance "i-1" [sampleInstance "i-1" "first", sampleInstance "i-1" "second"]
          = some (sampleInstance "i-1" "first")
      ∧ instanceModel (sampleInstance "i-1" "second")
          ≠ instanceModel (sampleInstance "i-1" "first")) := by
  refine ⟨fun l k hnd => ?_, ?_, rfl, ?_⟩
  · rw [instancesById_get?, findInstance_eq_find?, find?_reverse_of_nodup k l hnd]
  · exact instancesById_last [sampleInstance "i-1" "first"] []
      (sampleInstance "i-1" "second") (by simp)
  · simp [instanceModel, sampleInstance, StringPointerValue]

/-- C29 at a list of three instances with distinct ids, looked up for `i-1`. -/
theorem read_lookup_agrees_witness :
    GoMap.get? (instancesById
        [sampleInstance "i-7" "a", sampleInstance "i-1" "b", sampleInstance "i-9" "c"]) "i-1"
      = (findInstance "i-1"
          [sampleInstance "i-7" "a", sampleInstance "i-1" "b", sampleInstance "i-9" "c"]).map
            instanceModel :=
  read_lookup_agrees.1
    [sampleInstance "i-7" "a", sampleInstance "i-1" "b", sampleInstance "i-9" "c"] "i-1"
    (by decide)

/-! ## Optional integers -/

theorem foldl_filesystems (data : List FileSystem) (acc : Slice filesystemModel) :
    Slice.elems (data.foldl
        (fun fs filesystem => some (Slice.elems fs ++ [filesystemState filesystem])) acc)
      = Slice.elems acc ++ data.map filesystemState := by
  induction data generalizing acc with
  | nil => simp
  | cons x xs ih =>
    simp only [List.foldl_cons, ih, List.map_cons]
    simp [Slice.elems]

/-- C30: `makeOptionalTfInt64` never returns null: for a nil pointer it returns the known
value 0, for a pointer to `n` the known value `n`. So `filesystemsDataSource.Read` reports
`bytes_used` as the known value 0, not as null, for every listed filesystem whose
`bytes_used` is absent from the provider's response. -/
theorem optional_int_never_null :
    makeOptionalTfInt64 none = TfInt64.value 0
    ∧ (∀ n, makeOptionalTfInt64 (some n) = TfInt64.value n)
    ∧ (∀ r, makeOptionalTfInt64 r ≠ TfInt64.null)
    ∧ (∀ (body : String) (data : List FileSystem) (diags : Diagnostics),
        ∃ state, (filesystemsDataSource.Read (.ok ⟨body, some data⟩) diags).State = some state
          ∧ Slice.elems state = data.map filesystemState
          ∧ ∀ fs ∈ data, fs.BytesUsed = none →
              (filesystemState fs).BytesUsed = TfInt64.value 0
              ∧ filesystemState fs ∈ Slice.elems state) := by
  refine ⟨rfl, fun n => rfl, fun r => ?_, fun body data diags => ?_⟩
  · cases r <;> simp [makeOptionalTfInt64, Int64PointerValue]
  · refine ⟨_, rfl, ?_, ?_⟩
    · rw [foldl_filesystems]
      rfl
    · intro fs hfs hb
      refine ⟨by simp [filesystemState, hb, makeOptionalTfInt64, Int64PointerValue], ?_⟩
      rw [foldl_filesystems]
      simpa [Slice.elems] using ⟨fs, hfs, rfl⟩

/-- C30 at a filesystem whose `bytes_used` is absent. -/
theorem optional_int_never_null_witness :
    (filesystemsDataSource.Read
        (.ok ⟨"", some [⟨none, "2024-01-01", "fs-1", false, "/home/ubuntu/shared", "shared",
          sampleRegion⟩]⟩) []).State.map
          (fun state => (Slice.elems state).map filesystemModel.BytesUsed)
      = some [TfInt64.value 0] :=
  let ⟨state, hs, he, _⟩ := optional_int_never_null.2.2.2 ""
    [⟨none, "2024-01-01", "fs-1", false, "/home/ubuntu/shared", "shared", sampleRegion⟩] []
  by rw [hs]; simp only [Option.map_some', he]; rfl

end LambdaLabs
